import Mathlib

/-!
Verification development for the Terraform plan tag-compliance rule engine
(`src/terraform/Tagging_POLICY_Check.py`, with the sibling variants
`tag_master_policy_check.py` and `tagging_deep_scan.py`).

Conventions of the shallow embedding:
* A Python `dict` with string keys is an insertion-ordered association list
  `List (String × α)`; `dinsert` is `d[k] = v` (replace in place or append),
  `dupdate` is `d.update(e)`, `dlookup` is `d.get(k)`.
* A JSON value that may be a string or `null` is `Option String`
  (`none` = `null`); an attribute that may be absent is wrapped in a
  further `Option` at the field level.
* Python's `re.match` is an oracle parameter
  `re : String → String → Option Bool`: `re pat s = none` models a pattern
  that fails to compile (`re.error`), `some b` models a successful call
  returning a match (`b = true`) or `None` (`b = false`).  All general
  theorems are stated for every oracle; concrete runs use the `reMatchModel`
  oracle defined below, which fixes the behaviour of the finitely many
  patterns appearing in the rule catalog.
* The `DEPLOYMENT_ENV` environment variable is a parameter `denv : String`
  (already upper-cased, as the script upper-cases it at startup).
-/

set_option autoImplicit false

namespace TagScripts

/-! ## Python dict model -/

/-- `d.get(k)`: first binding of `k` in the association list. -/
def dlookup {α : Type} : List (String × α) → String → Option α
  | [], _ => none
  | p :: t, k => if k = p.1 then some p.2 else dlookup t k

/-- `d[k] = v`: replace the binding of `k` in place, or append it. -/
def dinsert {α : Type} : List (String × α) → String → α → List (String × α)
  | [], k, v => [(k, v)]
  | p :: t, k, v => if p.1 = k then (k, v) :: t else p :: dinsert t k v

/-- `d.update(e)`: insert every binding of `e` into `d`, in order. -/
def dupdate {α : Type} (d e : List (String × α)) : List (String × α) :=
  e.foldl (fun acc p => dinsert acc p.1 p.2) d

/-- `k in d`. -/
def containsKey {α : Type} (d : List (String × α)) (k : String) : Bool :=
  (dlookup d k).isSome

/-- `list(d.keys())`. -/
def keysOf {α : Type} (d : List (String × α)) : List String :=
  d.map (fun p => p.1)

/-- The keys of `d` are pairwise distinct (every genuine Python dict has this). -/
def NodupKeys {α : Type} (d : List (String × α)) : Prop :=
  (keysOf d).Nodup

instance {α : Type} (d : List (String × α)) : Decidable (NodupKeys d) := by
  unfold NodupKeys; infer_instance

/-- Last-wins lookup: the value the key `k` ends up with after `d.update(e)`,
as far as `e` is concerned (later bindings in `e` shadow earlier ones). -/
def updLookup {α : Type} : List (String × α) → String → Option α
  | [], _ => none
  | p :: t, k =>
    match updLookup t k with
    | some v => some v
    | none => if k = p.1 then some p.2 else none

/-- Python's `str.lower()` for the ASCII strings of this rule engine,
character by character (structurally recursive, unlike `String.toLower`). -/
def pyLower (s : String) : String :=
  String.mk (s.data.map Char.toLower)

/-- Split a character list on a separator character (the behaviour of
Python's `str.split(sep)` / `String.splitOn` for a one-character
separator, structurally recursive). -/
def splitOnChar (c : Char) (cs : List Char) : List (List Char) :=
  cs.foldr
    (fun ch acc =>
      match acc with
      | a :: rest => if ch = c then [] :: a :: rest else (ch :: a) :: rest
      | [] => [[ch]])
    [[]]

/-- `s.split(c)` on strings. -/
def strSplitOnChar (c : Char) (s : String) : List String :=
  (splitOnChar c s.data).map String.mk

end TagScripts

namespace PolicyCheck

open TagScripts

/-! ## Rule catalog (`Tagging_POLICY_Check.py`, lines 24-149) -/

/-- One mandatory or optional tag rule (an entry of `MANDATORY_TAG_RULES` /
`OPTIONAL_TAGS`). Absent dict keys are `none`. -/
structure Rule where
  key : String
  allowed_values : Option (List String) := none
  case_insensitive : Bool := false
  key_regex : Option String := none
  value_regex : Option String := none
  suggestion : Option String := none
  description : Option String := none
deriving DecidableEq, Repr

/-- `ALLOWED_ENV_VALUES`, selected from `DEPLOYMENT_ENV` at startup. -/
def ALLOWED_ENV_VALUES (denv : String) : List String :=
  if denv = "PROD" then ["Production::PRD"]
  else ["Non-production::DEV", "Non-production::QAT"]

/-- `ENV_SUGGESTION`, selected from `DEPLOYMENT_ENV` at startup. -/
def ENV_SUGGESTION (denv : String) : String :=
  if denv = "PROD" then "Production::PRD" else "Non-production::DEV (or QAT)"

/-- The `Owner` rule's email pattern (braces written as escapes). -/
def ownerEmailPattern : String :=
  "^[a-zA-Z0-9._%+-]+@[a-zA-Z0-9.-]+\\.[a-zA-Z]\x7b2,\x7d$"

/-- `MANDATORY_TAG_RULES`: resource-type name (or `"global"`) to rule list. -/
def MANDATORY_TAG_RULES (denv : String) : List (String × List Rule) :=
  [("global",
    [{ key := "Application",
       allowed_values := some ["MyApp", "AnotherApp", "TestApp"],
       case_insensitive := true,
       key_regex := some "^[a-zA-Z]+$",
       value_regex := some "^(?i)(MyApp|AnotherApp|TestApp)$",
       suggestion := some "MyApp" },
     { key := "Environment",
       allowed_values := some (ALLOWED_ENV_VALUES denv),
       key_regex := some "^Environment$",
       suggestion := some (ENV_SUGGESTION denv) },
     { key := "Owner",
       value_regex := some ownerEmailPattern,
       suggestion := some "your-email@example.com" }]),
   ("aws_s3_bucket",
    [{ key := "DataRetention",
       allowed_values := some ["30d", "1y", "5y", "Indefinite"],
       description := some "Data retention policy",
       value_regex := some "^(\\d+[dy]|Indefinite)$",
       suggestion := some "30d" },
     { key := "Classification",
       allowed_values := some ["Public", "Internal", "Confidential", "Strictly Confidential"],
       suggestion := some "Internal" },
     { key := "breadth",
       allowed_values := some ["single-region", "multi-region", "global"],
       description := some "Geographic scope of the data/bucket usage",
       suggestion := some "single-region" },
     { key := "sensitivity",
       allowed_values := some ["low", "medium", "high", "critical"],
       description := some "Sensitivity level of the data stored",
       suggestion := some "medium" },
     { key := "danger",
       allowed_values := some ["none", "potential-pii", "financial", "intellectual-property"],
       description := some "Type of risk associated with data exposure",
       suggestion := some "none" }]),
   ("aws_instance",
    [{ key := "AssetID",
       description := some "Asset identifier from CMDB",
       key_regex := some "^AssetID$",
       value_regex := some "^[a-zA-Z0-9-]+$",
       suggestion := some "asset-id-example" }]),
   ("aws_rds_cluster",
    [{ key := "PII",
       allowed_values := some ["true", "false"],
       suggestion := some "false" }])]

/-- `OPTIONAL_TAGS`. -/
def OPTIONAL_TAGS : List Rule :=
  [{ key := "CostCenter", description := some "Financial tracking code",
     suggestion := some "cost-center-example" },
   { key := "Project", description := some "Associated project name",
     suggestion := some "project-name" },
   { key := "Terraform", allowed_values := some ["true", "false"],
     case_insensitive := true,
     description := some "Indicates if the resource is managed by Terraform",
     suggestion := some "true" }]

/-- One entry of `EXCLUDED_RESOURCES`. -/
structure ExclusionRule where
  type : String
  name_regex : Option String := none
deriving DecidableEq, Repr

/-- `EXCLUDED_RESOURCES` after the conditional element and the emptiness
filter (the `aws_instance` name-pattern exclusion only exists outside PROD). -/
def EXCLUDED_RESOURCES (denv : String) : List ExclusionRule :=
  [{ type := "aws_iam_role" }, { type := "aws_iam_policy" }] ++
    (if denv ≠ "PROD" then [{ type := "aws_instance", name_regex := some "^(dev|test)-" }] else [])

/-- An `if_tag`/`then_tag` condition of a cross-tag rule (key plus value). -/
structure TagCond where
  key : String
  value : String
deriving DecidableEq, Repr

/-- One entry of `CROSS_TAG_RULES`; `none` fields model absent dict keys
(the code skips such malformed rules with a warning). -/
structure CrossTagRule where
  if_tag : Option TagCond := none
  then_tag : Option TagCond := none
  message : Option String := none
deriving DecidableEq, Repr

/-- `CROSS_TAG_RULES`: resource-type name to cross-tag rule list. -/
def CROSS_TAG_RULES : List (String × List CrossTagRule) :=
  [("aws_instance",
    [{ if_tag := some { key := "Environment", value := "Production::PRD" },
       then_tag := some { key := "BackupEnabled", value := "true" },
       message := some "Production instances MUST have 'BackupEnabled=true' tag." }]),
   ("aws_s3_bucket",
    [{ if_tag := some { key := "sensitivity", value := "critical" },
       then_tag := some { key := "Classification", value := "Strictly Confidential" },
       message := some "S3 Buckets with 'sensitivity=critical' MUST have 'Classification=Strictly Confidential' tag." }])]

/-! ## Rule resolution and validation (lines 153-266) -/

/-- Python truthiness of an optional string (`None` and `""` are falsy). -/
def truthyStr (o : Option String) : Bool :=
  !(o.getD "").isEmpty

/-- Python truthiness of an optional list (`None` and `[]` are falsy). -/
def truthyList (o : Option (List String)) : Bool :=
  !(o.getD []).isEmpty

/-- `get_relevant_tag_rules` (lines 153-167): merge global and
resource-type-specific mandatory rules through a dict keyed by `rule['key']`
(type-specific wins), and return a copy of the optional rules. -/
def get_relevant_tag_rules (denv rt : String) : List Rule × List Rule :=
  let global_rules := (dlookup (MANDATORY_TAG_RULES denv) "global").getD []
  let resource_specific_rules := (dlookup (MANDATORY_TAG_RULES denv) rt).getD []
  let global_dict := dupdate [] (global_rules.map (fun r => (r.key, r)))
  let specific_dict := dupdate [] (resource_specific_rules.map (fun r => (r.key, r)))
  let merged := dupdate global_dict specific_dict
  (merged.map (fun p => p.2), OPTIONAL_TAGS)

/-- The common regex step of `validate_tag_key` and `validate_tag_value`:
when a (truthy) pattern is configured, return whether `re.match` succeeds,
with a pattern that fails to compile (`re … = none`) treated as a non-match
after a warning; with no (truthy) pattern configured, pass. -/
def regexMatchCheck (re : String → String → Option Bool) (pattern : Option String)
    (s : String) : Bool :=
  match pattern with
  | some p =>
    if p = "" then true
    else
      match re p s with
      | some b => b
      | none => false
  | none => true

/-- `validate_tag_key` (lines 228-237): when the rule carries a (truthy)
`key_regex`, the key must match it; a pattern that fails to compile
(`re … = none`) is treated as a non-match. -/
def validate_tag_key (re : String → String → Option Bool) (tag_key : String)
    (rule : Rule) : Bool :=
  regexMatchCheck re rule.key_regex tag_key

/-- `validate_tag_value` (lines 239-266): check `allowed_values` membership
(lower-cased on both sides when `case_insensitive`), then `value_regex`
(compile failure treated as a failed match), with early return on the first
failed check. -/
def validate_tag_value (re : String → String → Option Bool) (tag_value : String)
    (rule : Rule) : Bool :=
  let regex_check : Bool := regexMatchCheck re rule.value_regex tag_value
  if truthyList rule.allowed_values then
    let avs := rule.allowed_values.getD []
    let check_value := if rule.case_insensitive then pyLower tag_value else tag_value
    let compare_list := if rule.case_insensitive then avs.map (fun v => pyLower v) else avs
    if compare_list.contains check_value then regex_check else false
  else regex_check

/-! ## Tag extraction (lines 191-225) -/

/-- The planned attribute map of one resource (`change.after`), restricted to
the attributes `extract_tags` reads.  `tags` / `tags_all` are JSON maps whose
values may be `null` (`Option String`); the block-style `tag` list holds
entries whose `key` is `some k` when present as a string and whose `value` is
`some v` when present as a primitive (already stringified) — any other entry
is skipped by the code with a warning.  A field is `none` when the attribute
is absent or not of the expected JSON type. -/
structure Config where
  tags : Option (List (String × Option String)) := none
  tag : Option (List (Option String × Option String)) := none
  tags_all : Option (List (String × Option String)) := none
deriving DecidableEq, Repr

/-- The `tag` block-list loop of `extract_tags` (lines 203-211): each
well-formed entry is written into the accumulating dict, malformed entries
are skipped with a warning. -/
def tagListFold (items : List (Option String × Option String))
    (t0 : List (String × Option String)) : List (String × Option String) :=
  items.foldl
    (fun acc item =>
      match item with
      | (some k, some v) => dinsert acc k (some v)
      | _ => acc)
    t0

/-- The final comprehension of `extract_tags` (line 223): drop `null`-valued
keys, keeping the surviving string values. -/
def dropNulls (d : List (String × Option String)) : List (String × String) :=
  d.filterMap (fun p => (p.2.map (fun v => (p.1, v))))

/-- `extract_tags` (lines 191-225), in state-passing form: the code binds
`tags = tags_all_dict` (an alias of `resource_config['tags_all']`) and then
mutates it with `tags.update(base_tags)`, so the input attribute map's
`tags_all` is updated in place; the second component returns that mutated
attribute map.  The first component is the returned canonical tag mapping,
with `null`-valued keys dropped at the end. -/
def extract_tags (cfg : Config) : List (String × String) × Config :=
  let t0 : List (String × Option String) := dupdate [] (cfg.tags.getD [])
  let t1 : List (String × Option String) := tagListFold (cfg.tag.getD []) t0
  match cfg.tags_all with
  | some ta =>
    let merged := dupdate ta t1
    (dropNulls merged, { cfg with tags_all := some merged })
  | none => (dropNulls t1, cfg)

/-! ## Compliance checks (lines 268-387) -/

/-- One entry of `missing_mandatory_info` / `missing_optional_info`:
`{"key": …, "suggestion": …, "description": …}`. -/
structure MissingInfo where
  key : String
  suggestion : String
  description : String
deriving DecidableEq, Repr

/-- One entry of `invalid_tags_info`; the `rule_regex` / `allowed` /
`case_insensitive` / `regex` dict keys are only present on the branches that
set them, hence the `Option` fields. -/
structure InvalidInfo where
  key : String
  value : String
  reason : String
  suggestion : String
  rule_regex : Option String := none
  allowed : Option (List String) := none
  case_insensitive : Option Bool := none
  regex : Option String := none
deriving DecidableEq, Repr

/-- `check_tag_compliance` (lines 268-355): walk the mandatory rules
(missing key → `missing_mandatory`; bad key format → `invalid`; bad value →
`invalid`), then collect absent optional tags (case-folded presence check
when the optional rule is case-insensitive).  An optional tag that is present
with an invalid value only triggers a console warning, which has no effect on
the returned lists. -/
def check_tag_compliance (re : String → String → Option Bool)
    (resource_tags : List (String × String)) (mandatory_rules optional_rules : List Rule) :
    List MissingInfo × List InvalidInfo × List MissingInfo :=
  let mand :=
    mandatory_rules.foldl
      (fun (acc : List MissingInfo × List InvalidInfo) rule =>
        if !(containsKey resource_tags rule.key) then
          (acc.1 ++ [{ key := rule.key, suggestion := rule.suggestion.getD "N/A",
                       description := rule.description.getD "" }], acc.2)
        else if !(validate_tag_key re rule.key rule) then
          (acc.1, acc.2 ++ [{ key := rule.key,
                              value := (dlookup resource_tags rule.key).getD "",
                              reason := "Invalid key format",
                              rule_regex := rule.key_regex,
                              suggestion := rule.suggestion.getD "N/A" }])
        else
          let current_value := (dlookup resource_tags rule.key).getD ""
          if !(validate_tag_value re current_value rule) then
            (acc.1, acc.2 ++ [{ key := rule.key,
                                value := current_value,
                                reason := "Invalid value",
                                suggestion := rule.suggestion.getD "N/A",
                                allowed := if truthyList rule.allowed_values then rule.allowed_values else none,
                                case_insensitive := if truthyList rule.allowed_values then some rule.case_insensitive else none,
                                regex := if truthyStr rule.value_regex then rule.value_regex else none }])
          else acc)
      ([], [])
  let missing_optional :=
    optional_rules.foldl
      (fun acc rule =>
        let check_key := if rule.case_insensitive then pyLower rule.key else rule.key
        let present_set :=
          if rule.case_insensitive then (keysOf resource_tags).map (fun k => pyLower k)
          else keysOf resource_tags
        if !(present_set.contains check_key) then
          acc ++ [{ key := rule.key, suggestion := rule.suggestion.getD "N/A",
                    description := rule.description.getD "" }]
        else acc)
      []
  (mand.1, mand.2, missing_optional)

/-- `check_cross_tag_rules` (lines 358-387): for each rule of the resource's
type, when the `if_tag` key is bound to exactly the `if_tag` value but the
`then_tag` key is not bound to exactly the `then_tag` value, append the
rule's message with the expected then-tag echoed; malformed rules (missing
`if_tag` or `then_tag`) are skipped.  `crossStep` is one iteration of its
loop. -/
def crossStep (resource_tags : List (String × String)) (violations : List String)
    (rule : CrossTagRule) : List String :=
  match rule.if_tag, rule.then_tag with
  | some it, some tt =>
    if dlookup resource_tags it.key = some it.value then
      if dlookup resource_tags tt.key = some tt.value then violations
      else
        violations ++
          [(rule.message.getD "Cross-tag rule violation") ++
             " (Expected '" ++ tt.key ++ "=" ++ tt.value ++ "')"]
    else violations
  | _, _ => violations

def check_cross_tag_rules (resource_tags : List (String × String)) (resource_type : String) :
    List String :=
  let rules_for_type := (dlookup CROSS_TAG_RULES resource_type).getD []
  rules_for_type.foldl (crossStep resource_tags) []

/-- `is_resource_excluded` (lines 488-508): the resource's local name is the
last dot-segment of its address; a resource is excluded when some exclusion
rule matches its type and either carries no `name_regex` or its `name_regex`
matches the name (a pattern that fails to compile skips that rule). -/
def is_resource_excluded (re : String → String → Option Bool) (denv : String)
    (resource_type resource_address : String) : Bool :=
  let resource_name := (strSplitOnChar '.' resource_address).getLastD ""
  (EXCLUDED_RESOURCES denv).any
    (fun rule =>
      rule.type == resource_type &&
        match rule.name_regex with
        | some p => (re p resource_name).getD false
        | none => true)

/-! ## Plan analysis (lines 510-614), `resource_changes` branch -/

/-- The `change` object of a change record, restricted to the keys the code
reads.  `after : none` models an absent `after` key (the code substitutes
`{}`), `after : some none` models a JSON `null` (the code then skips the
resource), `after : some (some c)` an attribute object.  `after_unknown` is
the list of keys of the `after_unknown` object when it is an object
(only membership of `"tags"` is ever consulted — and then ignored).
`actions` is the `change.actions` list of the Terraform schema, which this
script never reads. -/
structure ChangeRec where
  actions : Option (List String) := none
  after : Option (Option Config) := none
  after_unknown : Option (List String) := none
deriving DecidableEq, Repr

/-- One JSON object of the `resource_changes` list, restricted to the keys
the code reads.  `actions` is a top-level `actions` key: that (and not
`change.actions`) is what `resource.get(actions_key, [])` reads in the
`resource_changes` branch. -/
structure ResourceRec where
  address : Option String := none
  type : Option String := none
  actions : Option (List String) := none
  change : Option ChangeRec := none
deriving DecidableEq, Repr

/-- A change-record as fed to the per-resource `try` block.  `rec` is a
record whose extraction and evaluation complete normally — which is the case
for every record built from JSON objects as modelled by `ResourceRec`.
`raising` models a record (carrying the same address/type/actions routing
fields) whose tag-extraction/rule-evaluation step raises a Python exception
whose `str` is `msg` — e.g. a record whose `change` value is not an object,
so that `change_info.get` raises `AttributeError`; the per-resource handler
then records `str(e)` under the resource id. -/
inductive RC where
  | record (r : ResourceRec)
  | raising (address : Option String) (type : String) (actions : List String) (msg : String)
deriving DecidableEq, Repr

/-- The per-resource violation entry stored in `violations_by_resource`:
dict keys `missing` / `invalid` / `optional` / `cross_tag` /
`analysis_error`, each absent key modelled by `[]` / `none` (matching the
falsy value `issues.get(…)` yields for it). -/
structure Issues where
  missing : List MissingInfo := []
  invalid : List InvalidInfo := []
  optional : List MissingInfo := []
  cross_tag : List String := []
  analysis_error : Option String := none
deriving DecidableEq, Repr

/-- The entry the except-handler stores: `{"analysis_error": str(e)}`. -/
def errIssues (msg : String) : Issues :=
  { analysis_error := some msg }

/-- The accumulator of `analyze_terraform_plan`: `violations_by_resource`,
`analyzed_resources_count`, `excluded_resources_count`. -/
structure AState where
  vmap : List (String × Issues) := []
  analyzed : Nat := 0
  excluded : Nat := 0
deriving DecidableEq, Repr

/-- One iteration of the `for resource in resources_to_check` loop
(lines 535-611) in the `resource_changes` branch, for a record that does not
raise.  Follows the source order: read type/address/actions, keep only
create/update records, substitute `{}` for an absent `change` or `after`,
skip a `null` `after`, count exclusions, then extract tags, evaluate the
rules, and store the violation entry (a resource with only missing optional
tags is stored only if its address is not already present). -/
def stepRec (denv : String) (re : String → String → Option Bool)
    (st : AState) (r : ResourceRec) : AState :=
  let resource_type := r.type.getD ""
  let address := r.address.getD ("unknown_resource_" ++ toString st.analyzed)
  let actions := r.actions.getD []
  if actions.contains "create" || actions.contains "update" then
    let change_info := r.change.getD {}
    match change_info.after with
    | some none => st
    | other =>
      let config := (other.getD (some {})).getD {}
      if is_resource_excluded re denv resource_type address then
        { st with excluded := st.excluded + 1 }
      else
        let analyzed1 := st.analyzed + 1
        let tags := (extract_tags config).1
        let rules := get_relevant_tag_rules denv resource_type
        let checked := check_tag_compliance re tags rules.1 rules.2
        let missing_mandatory := checked.1
        let invalid_tags := checked.2.1
        let missing_optional := checked.2.2
        let cross_tag_errors := check_cross_tag_rules tags resource_type
        let vmap1 :=
          if !missing_mandatory.isEmpty || !invalid_tags.isEmpty || !cross_tag_errors.isEmpty then
            dinsert st.vmap address
              { missing := missing_mandatory, invalid := invalid_tags,
                optional := missing_optional, cross_tag := cross_tag_errors }
          else if !missing_optional.isEmpty then
            (if containsKey st.vmap address then st.vmap
             else dinsert st.vmap address { optional := missing_optional })
          else st.vmap
        { vmap := vmap1, analyzed := analyzed1, excluded := st.excluded }
  else st

/-- One iteration of the loop for a `raising` record: the code reaches the
extraction step only for a create/update record that is not excluded; the
raised exception is caught by the per-resource handler (lines 605-611),
which recomputes the resource id (the analyzed counter has already been
incremented) and stores `{"analysis_error": str(e)}` unless the id is
already present. -/
def stepRaising (denv : String) (re : String → String → Option Bool)
    (st : AState) (address : Option String) (resource_type : String)
    (actions : List String) (msg : String) : AState :=
  if actions.contains "create" || actions.contains "update" then
    let addr0 := address.getD ("unknown_resource_" ++ toString st.analyzed)
    if is_resource_excluded re denv resource_type addr0 then
      { st with excluded := st.excluded + 1 }
    else
      let analyzed1 := st.analyzed + 1
      let resource_id := address.getD ("unknown_resource_" ++ toString analyzed1)
      let vmap1 :=
        if containsKey st.vmap resource_id then st.vmap
        else st.vmap ++ [(resource_id, errIssues msg)]
      { vmap := vmap1, analyzed := analyzed1, excluded := st.excluded }
  else st

/-- One loop iteration, dispatching on whether the record raises. -/
def analyzeStep (denv : String) (re : String → String → Option Bool)
    (st : AState) (rc : RC) : AState :=
  match rc with
  | RC.record r => stepRec denv re st r
  | RC.raising a t acts m => stepRaising denv re st a t acts m

/-- The whole loop, from an arbitrary accumulator state. -/
def analyzeList (denv : String) (re : String → String → Option Bool)
    (rs : List RC) (st : AState) : AState :=
  rs.foldl (analyzeStep denv re) st

/-- `analyze_terraform_plan` (lines 510-614) on a plan whose resource list
comes from the `resource_changes` key. -/
def analyze_terraform_plan (denv : String) (re : String → String → Option Bool)
    (rs : List RC) : AState :=
  analyzeList denv re rs {}

/-! ## Report and exit code (lines 389-418, 647-652) -/

/-- The `summary` section of the structured report (Python ints are `Int`). -/
structure ReportSummary where
  total_resources_in_plan : Int
  excluded_resources : Int
  analyzed_resources : Int
  compliant_resources : Int
  resources_with_violations : Int
  deployment_environment_mode : String
deriving DecidableEq, Repr

/-- One entry of the structured report's `violations` list (note: no
`analysis_error` key is emitted; `issues.get` of an absent key yields the
defaults used here). -/
structure ReportEntry where
  resource : String
  missing_mandatory : List MissingInfo
  invalid_tags : List InvalidInfo
  cross_tag_errors : List String
  missing_optional_suggestions : List MissingInfo
deriving DecidableEq, Repr

/-- The structured report. -/
structure Report where
  summary : ReportSummary
  violations : List ReportEntry
deriving DecidableEq, Repr

/-- `generate_json_report` (lines 389-418): a summary built from the counts,
then one violations entry appended per entry of `violations_by_resource`
(in insertion order), then `compliant_resources` overwritten with
`total_resources - len(violations_by_resource)`. -/
def generate_json_report (denv : String) (violations_by_resource : List (String × Issues))
    (total_resources excluded_count : Nat) : Report :=
  let entries :=
    violations_by_resource.foldl
      (fun acc p =>
        acc ++ [{ resource := p.1,
                  missing_mandatory := p.2.missing,
                  invalid_tags := p.2.invalid,
                  cross_tag_errors := p.2.cross_tag,
                  missing_optional_suggestions := p.2.optional : ReportEntry }])
      []
  { summary :=
      { total_resources_in_plan := (total_resources : Int) + (excluded_count : Int),
        excluded_resources := (excluded_count : Int),
        analyzed_resources := (total_resources : Int),
        compliant_resources := (total_resources : Int) - (violations_by_resource.length : Int),
        resources_with_violations := (violations_by_resource.length : Int),
        deployment_environment_mode := denv },
    violations := entries }

/-- Python truthiness of `issues.get("analysis_error")`: an absent key and an
empty string are both falsy. -/
def truthyErr (o : Option String) : Bool :=
  !(o.getD "").isEmpty

/-- `has_critical_violations` (lines 648-651). -/
def has_critical_violations (violations_by_resource : List (String × Issues)) : Bool :=
  violations_by_resource.any
    (fun p =>
      !p.2.missing.isEmpty || !p.2.invalid.isEmpty || !p.2.cross_tag.isEmpty ||
        truthyErr p.2.analysis_error)

/-- The exit code `main` chooses (line 652). -/
def mainExitCode (violations_by_resource : List (String × Issues)) : Nat :=
  if has_critical_violations violations_by_resource then 1 else 0

end PolicyCheck

namespace RegexModel

open TagScripts

/-! ## Concrete model of the `re.match` collaborator

Python's regex engine is an external collaborator of the scripts (the
standard library), so it enters the embedding as the oracle parameter
described at the top of this file.  For concrete end-to-end runs we fix the
oracle below, which spells out `re.match`'s behaviour on exactly the eight
patterns appearing in the rule catalog and the exclusion table (all are
`^`-anchored; `re.match` anchors at the start only, so the one pattern
without `$`, the exclusion name pattern, is a prefix test). -/

/-- A character of the `[a-zA-Z0-9._%+-]` class (the local part of the
`Owner` email pattern). -/
def localChar (c : Char) : Bool :=
  c.isAlphanum || c = '.' || c = '_' || c = '%' || c = '+' || c = '-'

/-- A character of the `[a-zA-Z0-9.-]` class (the domain part of the
`Owner` email pattern). -/
def domainChar (c : Char) : Bool :=
  c.isAlphanum || c = '.' || c = '-'

/-- The language of the `Owner` email pattern: a non-empty local part over
its class, one `@`, then a domain that is some non-empty string over its
class followed by a literal dot and a final all-alphabetic label of length
at least two. -/
def emailLike (s : String) : Bool :=
  match strSplitOnChar '@' s with
  | [l, d] =>
    !l.data.isEmpty && l.data.all localChar && d.data.all domainChar &&
      (let parts := strSplitOnChar '.' d
       decide (parts.length ≥ 2) &&
         (match parts.getLast? with
          | some t =>
            decide (t.data.length ≥ 2) && t.data.all (fun c => c.isAlpha) &&
              decide (d.data.length ≥ t.data.length + 2)
          | none => false))
  | _ => false

/-- The language of the `DataRetention` pattern `^(\d+[dy]|Indefinite)$`. -/
def dataRetentionLike (s : String) : Bool :=
  s == "Indefinite" ||
    (match s.data.getLast? with
     | some c =>
       (c = 'd' || c = 'y') &&
         !s.data.dropLast.isEmpty && s.data.dropLast.all (fun ch => ch.isDigit)
     | none => false)

/-- `re.match pat s` for the catalog's patterns (`some true` = match,
`some false` = no match); every other pattern is mapped to `none`
(failure to compile), which the scripts treat as a failed check. -/
def reMatchModel (pat s : String) : Option Bool :=
  if pat = "^[a-zA-Z]+$" then some (!s.data.isEmpty && s.data.all (fun c => c.isAlpha))
  else if pat = "^(?i)(MyApp|AnotherApp|TestApp)$" then
    some (["myapp", "anotherapp", "testapp"].contains (pyLower s))
  else if pat = "^Environment$" then some (s == "Environment")
  else if pat = "^AssetID$" then some (s == "AssetID")
  else if pat = PolicyCheck.ownerEmailPattern then some (emailLike s)
  else if pat = "^(\\d+[dy]|Indefinite)$" then some (dataRetentionLike s)
  else if pat = "^[a-zA-Z0-9-]+$" then
    some (!s.data.isEmpty && s.data.all (fun c => c.isAlphanum || c = '-'))
  else if pat = "^(dev|test)-" then
    some (("dev-".data.isPrefixOf s.data) || ("test-".data.isPrefixOf s.data))
  else none

end RegexModel

namespace TagMaster

open TagScripts

/-! ## `tag_master_policy_check.py` (the rule-merge variant cited by C2) -/

/-- `MANDATORY_TAG_RULES` of `tag_master_policy_check.py` (lines 19-58);
rules reuse the `PolicyCheck.Rule` shape with the regex fields absent. -/
def MASTER_MANDATORY_TAG_RULES : List (String × List PolicyCheck.Rule) :=
  [("global",
    [{ key := "Application", allowed_values := some ["MyApp", "AnotherApp", "TestApp"],
       case_insensitive := true },
     { key := "Environment", allowed_values := some ["prod", "staging", "dev"] },
     { key := "Owner", allowed_values := some ["devops"] }]),
   ("aws_s3_bucket",
    [{ key := "DataRetention", allowed_values := some ["30d", "1y", "5y"],
       description := some "Data retention policy" },
     { key := "Classification", allowed_values := some ["Public", "Confidential"] }]),
   ("aws_instance",
    [{ key := "AssetID", description := some "Asset identifier from CMDB" }]),
   ("aws_rds_cluster",
    [{ key := "PII", allowed_values := some ["true", "false"] }])]

/-- `get_mandatory_tag_rules` (lines 70-79): one dict built from the
concatenation `global_rules + resource_rules` keyed by `rule["key"]`
(so a resource-specific rule overwrites a global rule with the same key),
returned as its value list. -/
def get_mandatory_tag_rules (rt : String) : List PolicyCheck.Rule :=
  let global_rules := (dlookup MASTER_MANDATORY_TAG_RULES "global").getD []
  let resource_rules := (dlookup MASTER_MANDATORY_TAG_RULES rt).getD []
  let merged := dupdate [] ((global_rules ++ resource_rules).map (fun r => (r.key, r)))
  merged.map (fun p => p.2)

end TagMaster

namespace DeepScan

open TagScripts

/-! ## `tagging_deep_scan.py` (the extractor variant cited by C3) -/

/-- `extract_tags` of `tagging_deep_scan.py` (lines 122-144): iterate the
sources `[tags, tags_all, tag]` in that order, merging each dict source as
`{str(k): str(v) for k, v in source.items() if v is not None}` and each list
source entry as `tags[str(key)] = str(value)` when its `key` is truthy and
its `value` is not `None`.  Note the order: `tags_all` is merged after
`tags`, so it overwrites it. -/
def extract_tags (cfg : PolicyCheck.Config) : List (String × String) :=
  let applyDict (tags : List (String × String)) (src : Option (List (String × Option String))) :
      List (String × String) :=
    match src with
    | some d => dupdate tags (d.filterMap (fun p => p.2.map (fun v => (p.1, v))))
    | none => tags
  let t1 := applyDict [] cfg.tags
  let t2 := applyDict t1 cfg.tags_all
  match cfg.tag with
  | some items =>
    items.foldl
      (fun acc item =>
        match item with
        | (some k, some v) => if k.isEmpty then acc else dinsert acc k v
        | _ => acc)
      t2
  | none => t2

end DeepScan

namespace Samples

open TagScripts PolicyCheck

/-! ## Concrete inputs used by witnesses and counterexamples -/

/-- A create-action Lambda resource whose tags satisfy every global
mandatory rule (under `DEPLOYMENT_ENV = NPE`) but which is missing every
optional tag. -/
def optOnlyRec : ResourceRec :=
  { address := some "aws_lambda_function.f",
    type := some "aws_lambda_function",
    actions := some ["create"],
    change := some
      { actions := some ["create"],
        after := some (some
          { tags := some
              [("Application", some "MyApp"),
               ("Environment", some "Non-production::DEV"),
               ("Owner", some "a@b.com")] }) } }

/-- A one-resource plan whose only findings are missing optional tags. -/
def optOnlyPlan : List RC := [RC.record optOnlyRec]

/-- A create-action S3 bucket whose tags are flagged unknown-at-apply-time
(`after_unknown.tags` set, `after` carrying no known attributes). -/
def s3UnknownRec : ResourceRec :=
  { address := some "aws_s3_bucket.b",
    type := some "aws_s3_bucket",
    actions := some ["create"],
    change := some
      { actions := some ["create"],
        after := none,
        after_unknown := some ["tags"] } }

/-- A delete-only change record in the documented `resource_changes` shape:
its actions list lives under `change.actions` and there is no top-level
`actions` key. -/
def deleteOnlyRec : ResourceRec :=
  { address := some "aws_instance.old",
    type := some "aws_instance",
    actions := none,
    change := some
      { actions := some ["delete"],
        after := some none } }

/-- The attribute map of the claim C3 example:
`tags={"A":"1"}`, `tags_all={"A":"2","B":"3"}`. -/
def cfgC3 : Config :=
  { tags := some [("A", some "1")],
    tags_all := some [("A", some "2"), ("B", some "3")] }

/-- The same attribute map with a block-style `tag` list also binding
`"A"` (to `"9"`). -/
def cfgC3tag : Config :=
  { tags := some [("A", some "1")],
    tag := some [(some "A", some "9")],
    tags_all := some [("A", some "2"), ("B", some "3")] }

end Samples

namespace PolicyCheck

open TagScripts

/-! ## Specification-side helper definitions used by the theorems -/

/-- What one cross-tag rule is specified to contribute: exactly one message
(with the expected then-tag echoed) when the `if_tag` condition holds and
the `then_tag` condition fails, and nothing otherwise. -/
def crossContribution (resource_tags : List (String × String)) (rule : CrossTagRule) :
    List String :=
  match rule.if_tag, rule.then_tag with
  | some it, some tt =>
    if dlookup resource_tags it.key = some it.value ∧
        ¬(dlookup resource_tags tt.key = some tt.value) then
      [(rule.message.getD "Cross-tag rule violation") ++
         " (Expected '" ++ tt.key ++ "=" ++ tt.value ++ "')"]
    else []
  | _, _ => []

/-- Whether one record's exception text (if any) is non-empty. -/
def recErrMsgOk : RC → Bool
  | RC.raising _ _ _ m => !(m == "")
  | RC.record _ => true

/-- Every `raising` record of the plan carries a non-empty exception text
(`str(e)` of every exception reachable in the per-resource block is
non-empty; an empty text would be falsy in `issues.get("analysis_error")`). -/
def noEmptyErrMsg (rs : List RC) : Bool :=
  rs.all recErrMsgOk

/-- Drop the entry of key `a` from a violation map. -/
def removeKey (a : String) (vmap : List (String × Issues)) : List (String × Issues) :=
  vmap.filter (fun p => p.1 != a)

/-- The record carries an explicit address different from `a` (addresses
are unique in a Terraform plan). -/
def rcAddrOk (a : String) : RC → Bool
  | RC.record r => r.address.isSome && !(r.address == some a)
  | RC.raising ad _ _ _ => ad.isSome && !(ad == some a)

/-- The projection of one violation-map entry into a structured-report
entry (the body of the `for resource_address, issues in …` loop of
`generate_json_report`). -/
def reportEntryOf (p : String × Issues) : ReportEntry :=
  { resource := p.1,
    missing_mandatory := p.2.missing,
    invalid_tags := p.2.invalid,
    cross_tag_errors := p.2.cross_tag,
    missing_optional_suggestions := p.2.optional }

end PolicyCheck

namespace Samples

open TagScripts PolicyCheck

/-- The analyzer state after running the optional-only plan under
`DEPLOYMENT_ENV = NPE` with the concrete regex oracle. -/
def optOnlyState : AState :=
  analyze_terraform_plan "NPE" RegexModel.reMatchModel optOnlyPlan

/-- The structured report of the optional-only plan. -/
def optOnlyReport : Report :=
  generate_json_report "NPE" optOnlyState.vmap optOnlyState.analyzed optOnlyState.excluded

end Samples


namespace TagScripts

/-! ## Lemmas about the dict model -/

theorem dinsert_nil {α : Type} (k : String) (v : α) : dinsert [] k v = [(k, v)] := rfl

theorem dinsert_cons_eq {α : Type} {p : String × α} (t : List (String × α)) {k : String} (v : α)
    (h : p.1 = k) : dinsert (p :: t) k v = (k, v) :: t := by
  unfold dinsert
  rw [if_pos h]

theorem dinsert_cons_ne {α : Type} {p : String × α} (t : List (String × α)) {k : String} (v : α)
    (h : ¬ p.1 = k) : dinsert (p :: t) k v = p :: dinsert t k v := by
  simp [dinsert, h]

theorem dlookup_cons {α : Type} (p : String × α) (t : List (String × α)) (k : String) :
    dlookup (p :: t) k = if k = p.1 then some p.2 else dlookup t k := rfl

theorem dlookup_dinsert {α : Type} (d : List (String × α)) (k k' : String) (v : α) :
    dlookup (dinsert d k v) k' = if k' = k then some v else dlookup d k' := by
  induction d with
  | nil => by_cases h : k' = k <;> simp [dinsert, dlookup, h]
  | cons p t ih =>
    by_cases hp : p.1 = k
    · rw [dinsert_cons_eq t v hp, dlookup_cons, dlookup_cons]
      by_cases h' : k' = k
      · simp [h']
      · have hpk : ¬(k' = p.1) := fun hh => h' (hh.trans hp)
        simp [h', hpk]
    · rw [dinsert_cons_ne t v hp, dlookup_cons, dlookup_cons]
      by_cases h2 : k' = p.1
      · have hne : ¬(k' = k) := fun hh => hp (h2.symm.trans hh)
        simp [h2, hne, hp]
      · simp [h2, ih]

theorem mem_keysOf_dinsert {α : Type} (d : List (String × α)) (k k' : String) (v : α) :
    k' ∈ keysOf (dinsert d k v) ↔ k' ∈ keysOf d ∨ k' = k := by
  induction d with
  | nil => simp [dinsert, keysOf]
  | cons p t ih =>
    by_cases hp : p.1 = k
    · rw [dinsert_cons_eq t v hp]
      unfold keysOf at *
      simp only [List.map_cons, List.mem_cons]
      constructor
      · rintro (h | h)
        · right; exact h
        · left; right; exact h
      · rintro ((h | h) | h)
        · left; rw [h]; exact hp
        · right; exact h
        · left; exact h
    · rw [dinsert_cons_ne t v hp]
      unfold keysOf at *
      simp only [List.map_cons, List.mem_cons]
      rw [ih]
      tauto

theorem nodupKeys_dinsert {α : Type} {d : List (String × α)} (k : String) (v : α)
    (h : NodupKeys d) : NodupKeys (dinsert d k v) := by
  induction d with
  | nil => simp [NodupKeys, dinsert, keysOf]
  | cons p t ih =>
    unfold NodupKeys keysOf at h ⊢
    simp only [List.map_cons, List.nodup_cons] at h
    by_cases hp : p.1 = k
    · rw [dinsert_cons_eq t v hp]
      simp only [List.map_cons, List.nodup_cons]
      exact ⟨by rw [← hp] at *; exact h.1, h.2⟩
    · rw [dinsert_cons_ne t v hp]
      simp only [List.map_cons, List.nodup_cons]
      refine ⟨fun hmem => ?_, ?_⟩
      · rcases (mem_keysOf_dinsert t k p.1 v).mp hmem with h1 | h1
        · exact h.1 h1
        · exact hp h1
      · have h2 := ih h.2
        unfold NodupKeys keysOf at h2
        exact h2

theorem nodupKeys_dupdate {α : Type} {d : List (String × α)} (e : List (String × α))
    (h : NodupKeys d) : NodupKeys (dupdate d e) := by
  induction e generalizing d with
  | nil => exact h
  | cons q t ih => exact ih (nodupKeys_dinsert q.1 q.2 h)

theorem dlookup_dupdate {α : Type} (d e : List (String × α)) (k : String) :
    dlookup (dupdate d e) k =
      match updLookup e k with
      | some v => some v
      | none => dlookup d k := by
  induction e generalizing d with
  | nil => rfl
  | cons q t ih =>
    show dlookup (dupdate (dinsert d q.1 q.2) t) k = _
    rw [ih]
    cases hu : updLookup t k with
    | some v => simp [updLookup, hu]
    | none =>
      rw [dlookup_dinsert]
      unfold updLookup
      rw [hu]
      by_cases h : k = q.1 <;> simp [h]

theorem updLookup_eq_none {α : Type} {e : List (String × α)} {k : String}
    (h : ¬ k ∈ keysOf e) : updLookup e k = none := by
  induction e with
  | nil => rfl
  | cons q t ih =>
    unfold keysOf at h
    simp only [List.map_cons, List.mem_cons] at h
    push_neg at h
    unfold updLookup
    rw [ih h.2]
    simp [h.1]

theorem updLookup_eq_dlookup {α : Type} {e : List (String × α)} (k : String)
    (h : NodupKeys e) : updLookup e k = dlookup e k := by
  induction e with
  | nil => rfl
  | cons q t ih =>
    unfold NodupKeys keysOf at h
    simp only [List.map_cons, List.nodup_cons] at h
    unfold updLookup
    rw [dlookup_cons]
    by_cases hk : k = q.1
    · rw [updLookup_eq_none (by rw [hk]; exact h.1)]
      simp [hk]
    · rw [ih h.2]
      cases hd : dlookup t k <;> simp [hk, hd]

theorem dinsert_self {α : Type} {d : List (String × α)} {k : String} {v : α}
    (h : dlookup d k = some v) : dinsert d k v = d := by
  induction d with
  | nil => simp [dlookup] at h
  | cons p t ih =>
    rw [dlookup_cons] at h
    by_cases hk : k = p.1
    · rw [if_pos hk] at h
      have hv : p.2 = v := Option.some.inj h
      rw [dinsert_cons_eq t v hk.symm, hk, ← hv]
    · rw [if_neg hk] at h
      rw [dinsert_cons_ne t v (fun hh => hk hh.symm), ih h]

theorem dupdate_self {α : Type} {e : List (String × α)} (he : NodupKeys e) :
    ∀ d : List (String × α), dupdate (dupdate d e) e = dupdate d e := by
  induction e with
  | nil => intro d; rfl
  | cons q t ih =>
    intro d
    unfold NodupKeys keysOf at he
    simp only [List.map_cons, List.nodup_cons] at he
    show dupdate (dinsert (dupdate (dinsert d q.1 q.2) t) q.1 q.2) t
        = dupdate (dinsert d q.1 q.2) t
    have hl : dlookup (dupdate (dinsert d q.1 q.2) t) q.1 = some q.2 := by
      rw [dlookup_dupdate, updLookup_eq_none he.1]
      simp [dlookup_dinsert]
    rw [dinsert_self hl]
    exact ih he.2 (dinsert d q.1 q.2)

theorem dlookup_mem {α : Type} {d : List (String × α)} {k : String} {v : α}
    (h : dlookup d k = some v) : (k, v) ∈ d := by
  induction d with
  | nil => simp [dlookup] at h
  | cons p t ih =>
    rw [dlookup_cons] at h
    by_cases hk : k = p.1
    · rw [if_pos hk] at h
      have hv : p.2 = v := Option.some.inj h
      have hp : (k, v) = p := by rw [hk, ← hv]
      rw [hp]
      exact List.mem_cons_self _ _
    · rw [if_neg hk] at h
      exact List.mem_cons_of_mem _ (ih h)

theorem mem_dinsert {α : Type} {d : List (String × α)} {k : String} {v : α} {p : String × α}
    (h : p ∈ dinsert d k v) : p ∈ d ∨ p = (k, v) := by
  induction d with
  | nil =>
    rw [dinsert_nil] at h
    right
    simpa using h
  | cons q t ih =>
    by_cases hq : q.1 = k
    · rw [dinsert_cons_eq t v hq] at h
      rcases List.mem_cons.mp h with h1 | h1
      · right; exact h1
      · left; exact List.mem_cons_of_mem _ h1
    · rw [dinsert_cons_ne t v hq] at h
      rcases List.mem_cons.mp h with h1 | h1
      · left; rw [h1]; exact List.mem_cons_self _ _
      · rcases ih h1 with h2 | h2
        · left; exact List.mem_cons_of_mem _ h2
        · right; exact h2

theorem mem_dupdate {α : Type} {d e : List (String × α)} {p : String × α}
    (h : p ∈ dupdate d e) : p ∈ d ∨ p ∈ e := by
  induction e generalizing d with
  | nil => left; exact h
  | cons q t ih =>
    rcases ih (d := dinsert d q.1 q.2) h with h1 | h1
    · rcases mem_dinsert h1 with h2 | h2
      · left; exact h2
      · right; rw [h2]; exact List.mem_cons_self _ _
    · right; exact List.mem_cons_of_mem _ h1

theorem containsKey_eq_true_iff {α : Type} (d : List (String × α)) (k : String) :
    containsKey d k = true ↔ k ∈ keysOf d := by
  induction d with
  | nil => simp [containsKey, dlookup, keysOf]
  | cons p t ih =>
    unfold containsKey at ih ⊢
    rw [dlookup_cons]
    unfold keysOf at ih ⊢
    simp only [List.map_cons, List.mem_cons]
    by_cases h : k = p.1
    · simp [h]
    · simp [h, ih]

theorem foldl_append_eq_flatMap {α β : Type} (g : α → List β) (l : List α) (init : List β) :
    l.foldl (fun acc x => acc ++ g x) init = init ++ l.flatMap g := by
  induction l generalizing init with
  | nil => simp
  | cons x t ih => simp [ih, List.append_assoc]

end TagScripts

open TagScripts PolicyCheck RegexModel Samples

theorem regexMatchCheck_eq_true_iff (re : String → String → Option Bool)
    (o : Option String) (s : String) :
    regexMatchCheck re o s = true ↔
      (∀ p, o = some p → ¬ p = "" → re p s = some true) := by
  cases o with
  | none => simp [regexMatchCheck]
  | some p =>
    by_cases hp : p = ""
    · simp [regexMatchCheck, hp]
    · cases hb : re p s with
      | none => simp [regexMatchCheck, hp, hb]
      | some b => cases b <;> simp [regexMatchCheck, hp, hb]

/-- Claim C1: for every rule and tag value, `validate_tag_value` returns
true iff (a) when the rule has a (non-empty) `allowed_values` list, the
value — lower-cased when `case_insensitive`, compared against the
likewise lower-cased allowed list — is a member of it, AND (b) when the
rule has a (non-empty) `value_regex`, `re.match` succeeds on it; a pattern
the oracle cannot compile (`re p v = none`) makes the check fail closed.
The function is total (it returns a `Bool` for every oracle), so no
exception reaches the caller. -/
theorem claim_C1_validate_tag_value (re : String → String → Option Bool)
    (rule : Rule) (tag_value : String) :
    validate_tag_value re tag_value rule = true ↔
      ((∀ avs, rule.allowed_values = some avs → avs ≠ [] →
          (if rule.case_insensitive then
             (avs.map (fun v => pyLower v)).contains (pyLower tag_value)
           else avs.contains tag_value) = true) ∧
       (∀ p, rule.value_regex = some p → ¬ p = "" → re p tag_value = some true)) := by
  cases hav : rule.allowed_values with
  | none =>
    simp [validate_tag_value, truthyList, hav, regexMatchCheck_eq_true_iff]
  | some avs =>
    cases avs with
    | nil =>
      simp [validate_tag_value, truthyList, hav, regexMatchCheck_eq_true_iff]
    | cons a rest =>
      cases hci : rule.case_insensitive with
      | false =>
        by_cases hc : (a :: rest).contains tag_value = true
        · simp [validate_tag_value, truthyList, hav, hci, hc, regexMatchCheck_eq_true_iff]
        · simp [validate_tag_value, truthyList, hav, hci, hc, regexMatchCheck_eq_true_iff]
      | true =>
        by_cases hc : ((a :: rest).map (fun v => pyLower v)).contains (pyLower tag_value) = true
        all_goals
          simp [validate_tag_value, truthyList, hav, hci, hc, regexMatchCheck_eq_true_iff]
        all_goals
          intro _
          constructor
          · rintro (h | h)
            · exact Or.inl h.symm
            · exact Or.inr h
          · rintro (h | h)
            · exact Or.inl h.symm
            · exact Or.inr h

theorem nodupKeys_nil {α : Type} : NodupKeys ([] : List (String × α)) := by
  simp [NodupKeys, keysOf]

theorem dinsert_eq_append {α : Type} {d : List (String × α)} {k : String} {v : α}
    (h : ¬ k ∈ keysOf d) : dinsert d k v = d ++ [(k, v)] := by
  induction d with
  | nil => rfl
  | cons p t ih =>
    unfold keysOf at h
    simp only [List.map_cons, List.mem_cons] at h
    push_neg at h
    rw [dinsert_cons_ne t v (fun hh => h.1 hh.symm), ih h.2]
    simp

theorem dupdate_eq_append {α : Type} :
    ∀ e : List (String × α), NodupKeys e →
      ∀ d, (∀ k ∈ keysOf e, ¬ k ∈ keysOf d) → dupdate d e = d ++ e := by
  intro e
  induction e with
  | nil => intro _ d _; simp [dupdate]
  | cons q t ih =>
    intro he d hdis
    unfold NodupKeys keysOf at he
    simp only [List.map_cons, List.nodup_cons] at he
    have hq : ¬ q.1 ∈ keysOf d := hdis q.1 (by unfold keysOf; simp)
    show dupdate (dinsert d q.1 q.2) t = d ++ q :: t
    rw [dinsert_eq_append hq]
    rw [ih he.2 (d ++ [(q.1, q.2)]) ?_]
    · simp
    · intro k hk
      unfold keysOf
      simp only [List.map_append, List.mem_append, List.map_cons, List.map_nil,
        List.mem_singleton, List.mem_cons]
      push_neg
      constructor
      · exact hdis k (by unfold keysOf at hk ⊢; simp only [List.map_cons, List.mem_cons]; right; exact hk)
      · refine ⟨fun hkq => he.1 (hkq ▸ hk), by simp⟩

theorem dupdate_nil {α : Type} {e : List (String × α)} (he : NodupKeys e) :
    dupdate [] e = e := by
  have h := dupdate_eq_append e he [] (by intro k _; simp [keysOf])
  simpa using h

theorem dupdate_append {α : Type} (d e1 e2 : List (String × α)) :
    dupdate d (e1 ++ e2) = dupdate (dupdate d e1) e2 := by
  simp [dupdate, List.foldl_append]

theorem pairs_inv (l : List Rule) :
    ∀ p ∈ l.map (fun x => (x.key, x)), p.1 = p.2.key := by
  intro p hp
  rcases List.mem_map.mp hp with ⟨x, _, rfl⟩
  rfl

theorem nodupKeys_pairs {s : List Rule} (hs : (s.map (fun x => x.key)).Nodup) :
    NodupKeys (s.map (fun x => (x.key, x))) := by
  unfold NodupKeys keysOf
  simpa [List.map_map, Function.comp] using hs

theorem dlookup_map_pair {s : List Rule} {r : Rule}
    (hs : (s.map (fun x => x.key)).Nodup) (hr : r ∈ s) :
    dlookup (s.map (fun x => (x.key, x))) r.key = some r := by
  induction s with
  | nil => simp at hr
  | cons x t ih =>
    simp only [List.map_cons, List.nodup_cons] at hs
    rcases List.mem_cons.mp hr with h1 | h1
    · subst h1
      simp [dlookup]
    · have hrt : r.key ∈ t.map (fun x => x.key) := List.mem_map.mpr ⟨r, h1, rfl⟩
      have hne : ¬ r.key = x.key := fun hh => hs.1 (hh ▸ hrt)
      rw [List.map_cons, dlookup_cons, if_neg hne]
      exact ih hs.2 h1

theorem mem_map_snd_dupdate_pairs (D : List (String × Rule)) {s : List Rule}
    (hs : (s.map (fun x => x.key)).Nodup) {r : Rule} (hr : r ∈ s) :
    r ∈ (dupdate D (s.map (fun x => (x.key, x)))).map (fun p => p.2) := by
  have hl : dlookup (dupdate D (s.map fun x => (x.key, x))) r.key = some r := by
    rw [dlookup_dupdate, updLookup_eq_dlookup _ (nodupKeys_pairs hs), dlookup_map_pair hs hr]
  exact List.mem_map.mpr ⟨(r.key, r), dlookup_mem hl, rfl⟩

theorem nodup_result_keys (D e : List (String × Rule))
    (hD : NodupKeys D) (hDinv : ∀ p ∈ D, p.1 = p.2.key) (heinv : ∀ p ∈ e, p.1 = p.2.key) :
    (((dupdate D e).map (fun p => p.2)).map (fun r => r.key)).Nodup := by
  have hinv : ∀ p ∈ dupdate D e, p.1 = p.2.key :=
    fun p hp => (mem_dupdate hp).elim (hDinv p) (heinv p)
  have hkeys : ((dupdate D e).map (fun p => p.2)).map (fun r => r.key) = keysOf (dupdate D e) := by
    rw [List.map_map]
    unfold keysOf
    apply List.map_congr_left
    intro p hp
    exact (hinv p hp).symm
  rw [hkeys]
  exact nodupKeys_dupdate e hD

theorem specific_nodup_policy (denv rt : String) :
    (((dlookup (MANDATORY_TAG_RULES denv) rt).getD []).map (fun r => r.key)).Nodup := by
  by_cases h1 : rt = "global"
  · subst h1; simp [MANDATORY_TAG_RULES, dlookup]
  · by_cases h2 : rt = "aws_s3_bucket"
    · subst h2; simp [MANDATORY_TAG_RULES, dlookup]
    · by_cases h3 : rt = "aws_instance"
      · subst h3; simp [MANDATORY_TAG_RULES, dlookup]
      · by_cases h4 : rt = "aws_rds_cluster"
        · subst h4; simp [MANDATORY_TAG_RULES, dlookup]
        · simp [MANDATORY_TAG_RULES, dlookup, h1, h2, h3, h4]

theorem specific_nodup_master (rt : String) :
    (((dlookup TagMaster.MASTER_MANDATORY_TAG_RULES rt).getD []).map (fun r => r.key)).Nodup := by
  by_cases h1 : rt = "global"
  · subst h1; simp [TagMaster.MASTER_MANDATORY_TAG_RULES, dlookup]
  · by_cases h2 : rt = "aws_s3_bucket"
    · subst h2; simp [TagMaster.MASTER_MANDATORY_TAG_RULES, dlookup]
    · by_cases h3 : rt = "aws_instance"
      · subst h3; simp [TagMaster.MASTER_MANDATORY_TAG_RULES, dlookup]
      · by_cases h4 : rt = "aws_rds_cluster"
        · subst h4; simp [TagMaster.MASTER_MANDATORY_TAG_RULES, dlookup]
        · simp [TagMaster.MASTER_MANDATORY_TAG_RULES, dlookup, h1, h2, h3, h4]

/-- Claim C2: for every deployment environment and resource type, the
merged mandatory rule list contains exactly one rule per distinct tag key
(its key projection is duplicate-free), and every rule of the type-specific
catalog entry — in particular its `allowed_values` and `suggestion` — occurs
verbatim in the merged result (so on a key collision the type-specific rule
is the survivor); this holds both for `get_relevant_tag_rules` of
`Tagging_POLICY_Check.py` and for `get_mandatory_tag_rules` of
`tag_master_policy_check.py`. -/
theorem claim_C2_rule_merge (denv rt : String) :
    (((get_relevant_tag_rules denv rt).1.map (fun r => r.key)).Nodup ∧
      ∀ r ∈ (dlookup (MANDATORY_TAG_RULES denv) rt).getD [],
        r ∈ (get_relevant_tag_rules denv rt).1) ∧
    (((TagMaster.get_mandatory_tag_rules rt).map (fun r => r.key)).Nodup ∧
      ∀ r ∈ (dlookup TagMaster.MASTER_MANDATORY_TAG_RULES rt).getD [],
        r ∈ TagMaster.get_mandatory_tag_rules rt) := by
  have hsP := specific_nodup_policy denv rt
  have hsM := specific_nodup_master rt
  constructor
  · have hform : (get_relevant_tag_rules denv rt).1 =
        (dupdate (dupdate [] (((dlookup (MANDATORY_TAG_RULES denv) "global").getD []).map
            (fun x => (x.key, x))))
          (((dlookup (MANDATORY_TAG_RULES denv) rt).getD []).map (fun x => (x.key, x)))).map
          (fun p => p.2) := by
      show (dupdate
          (dupdate [] (((dlookup (MANDATORY_TAG_RULES denv) "global").getD []).map
            (fun r => (r.key, r))))
          (dupdate [] (((dlookup (MANDATORY_TAG_RULES denv) rt).getD []).map
            (fun r => (r.key, r))))).map (fun p => p.2) = _
      rw [dupdate_nil (nodupKeys_pairs hsP)]
    rw [hform]
    constructor
    · exact nodup_result_keys _ _ (nodupKeys_dupdate _ nodupKeys_nil)
        (fun p hp => (mem_dupdate hp).elim (fun h => absurd h (List.not_mem_nil p)) (pairs_inv _ p))
        (pairs_inv _)
    · intro r hr
      exact mem_map_snd_dupdate_pairs _ hsP hr
  · have hform : TagMaster.get_mandatory_tag_rules rt =
        (dupdate (dupdate [] (((dlookup TagMaster.MASTER_MANDATORY_TAG_RULES "global").getD []).map
            (fun x => (x.key, x))))
          (((dlookup TagMaster.MASTER_MANDATORY_TAG_RULES rt).getD []).map (fun x => (x.key, x)))).map
          (fun p => p.2) := by
      show (dupdate []
          ((((dlookup TagMaster.MASTER_MANDATORY_TAG_RULES "global").getD []) ++
            ((dlookup TagMaster.MASTER_MANDATORY_TAG_RULES rt).getD [])).map
            (fun r => (r.key, r)))).map (fun p => p.2) = _
      rw [List.map_append, dupdate_append]
    rw [hform]
    constructor
    · exact nodup_result_keys _ _ (nodupKeys_dupdate _ nodupKeys_nil)
        (fun p hp => (mem_dupdate hp).elim (fun h => absurd h (List.not_mem_nil p)) (pairs_inv _ p))
        (pairs_inv _)
    · intro r hr
      exact mem_map_snd_dupdate_pairs _ hsM hr

theorem dlookup_eq_none {α : Type} {d : List (String × α)} {k : String}
    (h : ¬ k ∈ keysOf d) : dlookup d k = none := by
  cases hd : dlookup d k with
  | none => rfl
  | some v =>
    exact absurd (List.mem_map.mpr ⟨(k, v), dlookup_mem hd, rfl⟩) h

theorem mem_keysOf_dropNulls {d : List (String × Option String)} {k : String}
    (h : k ∈ keysOf (dropNulls d)) : k ∈ keysOf d := by
  induction d with
  | nil => simp [dropNulls, keysOf] at h
  | cons p t ih =>
    rcases p with ⟨k0, ov⟩
    cases ov with
    | none =>
      have hstep : dropNulls ((k0, none) :: t) = dropNulls t := by simp [dropNulls]
      rw [hstep] at h
      unfold keysOf
      simp only [List.map_cons, List.mem_cons]
      right
      exact ih h
    | some v =>
      have hstep : dropNulls ((k0, some v) :: t) = (k0, v) :: dropNulls t := by simp [dropNulls]
      rw [hstep] at h
      unfold keysOf at h ⊢
      simp only [List.map_cons, List.mem_cons] at h ⊢
      rcases h with h | h
      · left; exact h
      · right; exact ih h

theorem dlookup_dropNulls {d : List (String × Option String)} (hd : NodupKeys d) (k : String) :
    dlookup (dropNulls d) k = (dlookup d k).bind id := by
  induction d with
  | nil => rfl
  | cons p t ih =>
    unfold NodupKeys keysOf at hd
    simp only [List.map_cons, List.nodup_cons] at hd
    rcases p with ⟨k0, ov⟩
    cases ov with
    | none =>
      have hstep : dropNulls ((k0, none) :: t) = dropNulls t := by
        simp [dropNulls]
      rw [hstep]
      by_cases hk : k = k0
      · subst hk
        rw [dlookup_eq_none (fun hmem => hd.1 (mem_keysOf_dropNulls hmem))]
        simp [dlookup_cons]
      · rw [ih hd.2, dlookup_cons]
        simp [hk]
    | some v =>
      have hstep : dropNulls ((k0, some v) :: t) = (k0, v) :: dropNulls t := by
        simp [dropNulls]
      rw [hstep, dlookup_cons, dlookup_cons]
      by_cases hk : k = k0
      · simp [hk]
      · simp only [hk, if_false]
        exact ih hd.2

theorem nodupKeys_tagListFold (items : List (Option String × Option String)) :
    ∀ acc : List (String × Option String), NodupKeys acc → NodupKeys (tagListFold items acc) := by
  induction items with
  | nil => intro acc h; exact h
  | cons it t ih =>
    intro acc h
    rcases it with ⟨ok, ov⟩
    cases ok with
    | none => exact ih acc h
    | some k =>
      cases ov with
      | none => exact ih acc h
      | some v => exact ih _ (nodupKeys_dinsert k (some v) h)

/-- Claim C9: `extract_tags` is idempotent — running it a second time on
the attribute map returned by the first run (which carries the in-place
mutation of `tags_all`) yields exactly the same canonical tag mapping. -/
theorem claim_C9_extract_tags_idempotent (cfg : Config) :
    (extract_tags (extract_tags cfg).2).1 = (extract_tags cfg).1 := by
  cases hta : cfg.tags_all with
  | none => simp [extract_tags, hta]
  | some ta =>
    have hn1 : NodupKeys (tagListFold (cfg.tag.getD []) (dupdate [] (cfg.tags.getD []))) :=
      nodupKeys_tagListFold _ _ (nodupKeys_dupdate _ nodupKeys_nil)
    simp only [extract_tags, hta]
    rw [dupdate_self hn1 ta]

/-- Claim C3, amended: for the `Tagging_POLICY_Check.py` extractor, on an
attribute map without a block-style `tag` list, every key bound to a
non-null value in `tags` maps to that value (never overridden by
`tags_all`), a key bound to `null` in `tags` is dropped (even when
`tags_all` has a value for it), and a key absent from `tags` maps to its
non-null `tags_all` value; in particular the claim's example
`tags={"A":"1"}`, `tags_all={"A":"2","B":"3"}` extracts to
`{"A":"1","B":"3"}`.  (The claim as stated fails when a `tag` list binds
the same key, and fails for the `tagging_deep_scan.py` extractor — see the
counterexample.) -/
theorem claim_C3_extract_precedence :
    (∀ cfg : Config, cfg.tag = none →
      NodupKeys (cfg.tags.getD []) → NodupKeys (cfg.tags_all.getD []) →
      ∀ k, dlookup (extract_tags cfg).1 k =
        (match dlookup (cfg.tags.getD []) k with
         | some ov => ov
         | none => (dlookup (cfg.tags_all.getD []) k).bind id)) ∧
    (extract_tags Samples.cfgC3).1 = [("A", "1"), ("B", "3")] := by
  constructor
  · intro cfg htag hnt hnta k
    cases hta : cfg.tags_all with
    | none =>
      simp only [extract_tags, hta, htag]
      rw [show tagListFold ((none : Option (List (Option String × Option String))).getD [])
            (dupdate [] (cfg.tags.getD [])) = dupdate [] (cfg.tags.getD []) from rfl]
      rw [dupdate_nil hnt]
      rw [dlookup_dropNulls hnt]
      cases dlookup (cfg.tags.getD []) k <;> simp [dlookup]
    | some ta =>
      have hnta2 : NodupKeys ta := by rw [hta] at hnta; simpa using hnta
      simp only [extract_tags, hta, htag]
      have hbase : tagListFold ((none : Option (List (Option String × Option String))).getD [])
            (dupdate [] (cfg.tags.getD [])) = dupdate [] (cfg.tags.getD []) := rfl
      rw [hbase, dupdate_nil hnt]
      rw [dlookup_dropNulls (nodupKeys_dupdate _ hnta2)]
      rw [dlookup_dupdate, updLookup_eq_dlookup _ hnt]
      cases dlookup (cfg.tags.getD []) k <;> simp
  · rfl

/-- Claim C3 counterexample: on the claim's own example input, the
`tagging_deep_scan.py` extractor (cited by the claim) returns
`{"A":"2","B":"3"}` — `tags_all` overrides `tags` there, so the extracted
value of `"A"` is `"2"`, not `"1"`; and the `Tagging_POLICY_Check.py`
extractor binds `"A"` to `"9"` when a block-style `tag` list entry
`{key:"A",value:"9"}` is also present. -/
theorem claim_C3_counterexample :
    DeepScan.extract_tags Samples.cfgC3 = [("A", "2"), ("B", "3")] ∧
    dlookup (DeepScan.extract_tags Samples.cfgC3) "A" = some "2" ∧
    dlookup (extract_tags Samples.cfgC3tag).1 "A" = some "9" :=
  ⟨rfl, rfl, rfl⟩


/-- Witness for the amended claim C3 at the concrete example input. -/
theorem claim_C3_extract_precedence_witness :
    (Samples.cfgC3.tag = none ∧ NodupKeys (Samples.cfgC3.tags.getD []) ∧
      NodupKeys (Samples.cfgC3.tags_all.getD [])) ∧
    dlookup (extract_tags Samples.cfgC3).1 "A" =
      (match dlookup (Samples.cfgC3.tags.getD []) "A" with
       | some ov => ov
       | none => (dlookup (Samples.cfgC3.tags_all.getD []) "A").bind id) :=
  ⟨⟨rfl, by decide, by decide⟩,
   claim_C3_extract_precedence.1 Samples.cfgC3 rfl (by decide) (by decide) "A"⟩

theorem crossStep_eq (resource_tags : List (String × String)) (acc : List String)
    (rule : CrossTagRule) :
    crossStep resource_tags acc rule = acc ++ crossContribution resource_tags rule := by
  unfold crossStep crossContribution
  cases hit : rule.if_tag with
  | none => simp
  | some it =>
    cases htt : rule.then_tag with
    | none => simp
    | some tt =>
      by_cases h1 : dlookup resource_tags it.key = some it.value
      · by_cases h2 : dlookup resource_tags tt.key = some tt.value
        · simp [h1, h2]
        · simp [h1, h2]
      · simp [h1]

theorem foldl_crossStep_eq (resource_tags : List (String × String)) :
    ∀ (rules : List CrossTagRule) (init : List String),
      rules.foldl (crossStep resource_tags) init =
        init ++ rules.flatMap (crossContribution resource_tags) := by
  intro rules
  induction rules with
  | nil => intro init; simp
  | cons r t ih =>
    intro init
    rw [List.foldl_cons, crossStep_eq, ih]
    simp [List.append_assoc]

/-- Claim C4: `check_cross_tag_rules` returns exactly the concatenation,
over the cross-tag rules registered for the resource type, of each rule's
specified contribution (`crossContribution`): one entry — the rule's
message with the expected then-tag echoed — when the resource's tags bind
`if_tag.key` to exactly `if_tag.value` but do not bind `then_tag.key` to
exactly `then_tag.value`, and no entry when the `if_tag` condition is not
satisfied (or the `then_tag` condition also holds). -/
theorem claim_C4_check_cross_tag_rules (resource_tags : List (String × String)) (rt : String) :
    check_cross_tag_rules resource_tags rt =
      ((dlookup CROSS_TAG_RULES rt).getD []).flatMap (crossContribution resource_tags) := by
  unfold check_cross_tag_rules
  rw [foldl_crossStep_eq]
  simp

/-- Claim C10: a change record of the `resource_changes` schema — its
actions list stored under `change.actions`, no separate top-level `actions`
key — whose `change.actions` contains neither `"create"` nor `"update"` is
skipped entirely: the analysis of the whole plan is the same as if the
record were absent, so it is counted in neither `analyzed_resources` nor
`excluded_resources` and never appears in the violation map.  (The code
reads the top-level `actions` key, absent in this schema, so the skip
branch is taken.) -/
theorem claim_C10_non_create_update_skipped (denv : String) (re : String → String → Option Bool)
    (rs1 rs2 : List RC) (s0 : AState) (r : ResourceRec) (ca : List String)
    (hshape : r.actions = none)
    (hca : (r.change.getD {}).actions = some ca)
    (hcreate : ¬ "create" ∈ ca) (hupdate : ¬ "update" ∈ ca) :
    analyzeList denv re (rs1 ++ RC.record r :: rs2) s0 = analyzeList denv re (rs1 ++ rs2) s0 := by
  have hid : ∀ st, analyzeStep denv re st (RC.record r) = st := by
    intro st
    simp [analyzeStep, stepRec, hshape]
  unfold analyzeList
  rw [List.foldl_append, List.foldl_cons, hid, ← List.foldl_append]

/-- Witness for claim C10 at a concrete delete-only record. -/
theorem claim_C10_non_create_update_skipped_witness :
    (Samples.deleteOnlyRec.actions = none ∧
     (Samples.deleteOnlyRec.change.getD {}).actions = some ["delete"] ∧
     ¬ "create" ∈ (["delete"] : List String) ∧ ¬ "update" ∈ (["delete"] : List String)) ∧
    analyzeList "NPE" reMatchModel [RC.record Samples.deleteOnlyRec] {} =
      analyzeList "NPE" reMatchModel [] {} :=
  ⟨⟨rfl, rfl, by decide, by decide⟩,
   claim_C10_non_create_update_skipped "NPE" reMatchModel [] [] {} Samples.deleteOnlyRec ["delete"]
     rfl rfl (by decide) (by decide)⟩

/-- Claim C7 (code-bug evidence): a create-action `aws_s3_bucket` record
whose `after_unknown` flags `tags` and whose `after` carries no known
attributes IS counted in `analyzed_resources`, but — for every regex
oracle — the code reports all eight mandatory S3 tags in
`missing_mandatory` instead of skipping mandatory validation (the
`after_unknown` branch of `analyze_terraform_plan` is a no-op `pass`),
contradicting the claim's required zero entries. -/
theorem claim_C7_after_unknown_failing : ∀ re : String → String → Option Bool,
    (analyze_terraform_plan "NPE" re [RC.record Samples.s3UnknownRec]).analyzed = 1 ∧
    ((dlookup (analyze_terraform_plan "NPE" re [RC.record Samples.s3UnknownRec]).vmap
        "aws_s3_bucket.b").map (fun i => i.missing.map (fun m => m.key))) =
      some ["Application", "Environment", "Owner", "DataRetention", "Classification",
            "breadth", "sensitivity", "danger"] ∧
    ((dlookup (analyze_terraform_plan "NPE" re [RC.record Samples.s3UnknownRec]).vmap
        "aws_s3_bucket.b").map (fun i => i.invalid)) = some [] := by
  intro re
  refine ⟨rfl, rfl, rfl⟩

theorem flatMap_singleton_eq_map {α β : Type} (f : α → β) (l : List α) :
    l.flatMap (fun x => [f x]) = l.map f := by
  induction l with
  | nil => rfl
  | cons x t ih => simp [ih]

/-- Claim C5 counterexample: running the analyzer on a one-resource plan
whose only finding is three missing optional tags, the structured report
places that resource in its `violations` list (with empty
`missing_mandatory`, `invalid_tags` and `cross_tag_errors`) and reports
`compliant_resources = 0` instead of `analyzed_resources = 1`; so the
report does not satisfy the claim's property (violations restricted to
real violations, compliant = analyzed − real violations). -/
theorem claim_C5_counterexample :
    Samples.optOnlyReport.summary.analyzed_resources = 1 ∧
    Samples.optOnlyReport.summary.compliant_resources = 0 ∧
    Samples.optOnlyReport.summary.resources_with_violations = 1 ∧
    ¬((∀ e ∈ Samples.optOnlyReport.violations,
        ¬(e.missing_mandatory = [] ∧ e.invalid_tags = [] ∧ e.cross_tag_errors = [])) ∧
      Samples.optOnlyReport.summary.compliant_resources =
        Samples.optOnlyReport.summary.analyzed_resources) := by
  refine ⟨rfl, rfl, rfl, ?_⟩
  intro hcl
  have hv : Samples.optOnlyReport.violations =
      [{ resource := "aws_lambda_function.f",
         missing_mandatory := [],
         invalid_tags := [],
         cross_tag_errors := [],
         missing_optional_suggestions :=
           [{ key := "CostCenter", suggestion := "cost-center-example",
              description := "Financial tracking code" },
            { key := "Project", suggestion := "project-name",
              description := "Associated project name" },
            { key := "Terraform", suggestion := "true",
              description := "Indicates if the resource is managed by Terraform" }] }] := rfl
  have h := hcl.1 _ (by rw [hv]; exact List.mem_cons_self _ _)
  exact h ⟨rfl, rfl, rfl⟩

/-- Claim C5, amended: the structured report's `violations` list contains
one entry per entry of the violation map — including resources whose only
finding is a missing optional tag, carried with the three real-violation
lists empty — and `summary.resources_with_violations` is the size of that
map (optional-only entries included), with
`compliant_resources = analyzed_resources − resources_with_violations`
computed from that same size. -/
theorem claim_C5_report_structure (denv : String) (vmap : List (String × Issues))
    (total excluded : Nat) :
    (generate_json_report denv vmap total excluded).violations = vmap.map reportEntryOf ∧
    (generate_json_report denv vmap total excluded).summary.resources_with_violations =
      (vmap.length : Int) ∧
    (generate_json_report denv vmap total excluded).summary.compliant_resources =
      (total : Int) - (vmap.length : Int) ∧
    (generate_json_report denv vmap total excluded).summary.analyzed_resources = (total : Int) := by
  refine ⟨?_, rfl, rfl, rfl⟩
  have h := foldl_append_eq_flatMap (fun p : String × Issues => [reportEntryOf p]) vmap []
  exact h.trans ((by rw [List.nil_append]; exact flatMap_singleton_eq_map reportEntryOf vmap))

theorem mem_stepRec_vmap {denv : String} {re : String → String → Option Bool}
    {st : AState} {r : ResourceRec} {p : String × Issues}
    (hp : p ∈ (stepRec denv re st r).vmap) : p ∈ st.vmap ∨ p.2.analysis_error = none := by
  simp only [stepRec] at hp
  split at hp
  · split at hp
    · left; exact hp
    · split at hp
      · left; exact hp
      · split at hp
        · rcases mem_dinsert hp with h | h
          · left; exact h
          · right; rw [h]
        · split at hp
          · split at hp
            · left; exact hp
            · rcases mem_dinsert hp with h | h
              · left; exact h
              · right; rw [h]
          · left; exact hp
  · left; exact hp

theorem mem_stepRaising_vmap {denv : String} {re : String → String → Option Bool}
    {st : AState} {a : Option String} {t : String} {acts : List String} {m : String}
    {p : String × Issues}
    (hp : p ∈ (stepRaising denv re st a t acts m).vmap) :
    p ∈ st.vmap ∨ p.2.analysis_error = some m := by
  simp only [stepRaising] at hp
  split at hp
  · split at hp
    · left; exact hp
    · split at hp
      · left; exact hp
      · rcases List.mem_append.mp hp with h | h
        · left; exact h
        · right
          rcases List.mem_singleton.mp h with rfl
          rfl
  · left; exact hp

theorem analysisError_inv (denv : String) (re : String → String → Option Bool) :
    ∀ rs : List RC, noEmptyErrMsg rs = true →
      ∀ st0 : AState, (∀ p ∈ st0.vmap, ¬ p.2.analysis_error = some "") →
        ∀ p ∈ (analyzeList denv re rs st0).vmap, ¬ p.2.analysis_error = some "" := by
  intro rs
  induction rs with
  | nil => intro _ st0 h0; exact h0
  | cons rc t ih =>
    intro h st0 h0
    have hsplit : recErrMsgOk rc = true ∧ noEmptyErrMsg t = true := by
      simpa [noEmptyErrMsg, Bool.and_eq_true] using h
    refine ih hsplit.2 _ ?_
    intro p hp
    cases rc with
    | record r =>
      rcases mem_stepRec_vmap (show p ∈ (stepRec denv re st0 r).vmap from hp) with h1 | h1
      · exact h0 p h1
      · rw [h1]; simp
    | raising a ty acts m =>
      rcases mem_stepRaising_vmap (show p ∈ (stepRaising denv re st0 a ty acts m).vmap from hp)
          with h1 | h1
      · exact h0 p h1
      · rw [h1]
        have hm : ¬ m = "" := by simpa [recErrMsgOk] using hsplit.1
        simp [hm]

theorem exitCode_zero_iff (v : List (String × Issues)) :
    mainExitCode v = 0 ↔ has_critical_violations v = false := by
  unfold mainExitCode
  split <;> simp_all

/-- Claim C6: for every run whose raising records carry non-empty
exception texts (true of every exception `str` reachable in the
per-resource block), the exit code is 0 iff no recorded resource has a
missing mandatory tag, an invalid tag, a cross-tag error, or an analysis
error (resources never recorded have no findings by construction); and
the concrete plan whose only findings are missing optional tags exits
with code 0. -/
theorem claim_C6_exit_code :
    (∀ (denv : String) (re : String → String → Option Bool) (rs : List RC),
      noEmptyErrMsg rs = true →
      (mainExitCode (analyze_terraform_plan denv re rs).vmap = 0 ↔
        ∀ p ∈ (analyze_terraform_plan denv re rs).vmap,
          p.2.missing = [] ∧ p.2.invalid = [] ∧ p.2.cross_tag = [] ∧
            p.2.analysis_error = none)) ∧
    mainExitCode (analyze_terraform_plan "NPE" RegexModel.reMatchModel Samples.optOnlyPlan).vmap
      = 0 := by
  constructor
  · intro denv re rs h
    have hinv := analysisError_inv denv re rs h {} (by intro p hp; simp at hp)
    rw [exitCode_zero_iff]
    unfold has_critical_violations
    rw [List.any_eq_false]
    constructor
    · intro hall p hp
      have hcrit := hall p hp
      have herr := hinv p hp
      simp only [Bool.or_eq_true, Bool.not_eq_true, not_or] at hcrit
      obtain ⟨⟨⟨h1, h2⟩, h3⟩, h4⟩ := hcrit
      refine ⟨?_, ?_, ?_, ?_⟩
      · simpa using h1
      · simpa using h2
      · simpa using h3
      · unfold truthyErr at h4
        cases he : p.2.analysis_error with
        | none => rfl
        | some s =>
          rw [he] at h4
          have h4e : s.isEmpty = true := by simpa using h4
          have hs : s = "" := (String.isEmpty_iff s).mp h4e
          exact absurd (by rw [he, hs]) herr
    · intro hall p hp
      obtain ⟨h1, h2, h3, h4⟩ := hall p hp
      simp only [h1, h2, h3, h4, truthyErr, Option.getD_none, List.isEmpty_nil,
        Bool.not_true, Bool.or_self, Bool.or_false, Bool.false_or]
      decide
  · rfl

/-- Witness for claim C6's hypothesis at the optional-only plan. -/
theorem claim_C6_exit_code_witness :
    noEmptyErrMsg Samples.optOnlyPlan = true ∧
    (mainExitCode (analyze_terraform_plan "NPE" RegexModel.reMatchModel
        Samples.optOnlyPlan).vmap = 0 ↔
      ∀ p ∈ (analyze_terraform_plan "NPE" RegexModel.reMatchModel Samples.optOnlyPlan).vmap,
        p.2.missing = [] ∧ p.2.invalid = [] ∧ p.2.cross_tag = [] ∧
          p.2.analysis_error = none) :=
  ⟨rfl, claim_C6_exit_code.1 "NPE" RegexModel.reMatchModel Samples.optOnlyPlan rfl⟩

theorem dlookup_append {α : Type} (d1 d2 : List (String × α)) (k : String) :
    dlookup (d1 ++ d2) k =
      match dlookup d1 k with
      | some v => some v
      | none => dlookup d2 k := by
  induction d1 with
  | nil => simp [dlookup]
  | cons p t ih =>
    rw [List.cons_append, dlookup_cons, dlookup_cons]
    by_cases hk : k = p.1
    · simp [hk]
    · simp [hk, ih]

theorem dlookup_removeKey {a k : String} (hka : ¬ k = a) (d : List (String × Issues)) :
    dlookup (removeKey a d) k = dlookup d k := by
  induction d with
  | nil => rfl
  | cons p t ih =>
    unfold removeKey at ih ⊢
    rw [List.filter_cons]
    by_cases hpa : p.1 = a
    · have hb : (p.1 != a) = false := by simp [hpa]
      rw [hb]
      simp only [Bool.false_eq_true, if_false]
      rw [ih, dlookup_cons, if_neg (fun hh => hka (hh.trans hpa))]
    · have hb : (p.1 != a) = true := by simp [hpa]
      rw [hb]
      simp only [if_true]
      rw [dlookup_cons, dlookup_cons]
      by_cases hk : k = p.1
      · simp [hk]
      · simp [hk, ih]

theorem containsKey_removeKey {a k : String} (hka : ¬ k = a) (d : List (String × Issues)) :
    containsKey (removeKey a d) k = containsKey d k := by
  unfold containsKey
  rw [dlookup_removeKey hka]

theorem removeKey_not_mem {a : String} {d : List (String × Issues)}
    (h : ¬ a ∈ keysOf d) : removeKey a d = d := by
  induction d with
  | nil => rfl
  | cons p t ih =>
    unfold keysOf at h
    simp only [List.map_cons, List.mem_cons] at h
    push_neg at h
    unfold removeKey at ih ⊢
    rw [List.filter_cons]
    have hb : (p.1 != a) = true := by simp; exact fun hh => h.1 hh.symm
    rw [hb]
    simp only [if_true]
    rw [ih h.2]

theorem removeKey_append (a : String) (d1 d2 : List (String × Issues)) :
    removeKey a (d1 ++ d2) = removeKey a d1 ++ removeKey a d2 := by
  unfold removeKey
  exact List.filter_append d1 d2

theorem removeKey_dinsert {a k : String} (hka : ¬ k = a) (d : List (String × Issues))
    (v : Issues) : removeKey a (dinsert d k v) = dinsert (removeKey a d) k v := by
  induction d with
  | nil =>
    unfold removeKey
    rw [dinsert_nil]
    simp only [List.filter_nil, dinsert_nil, List.filter_cons]
    have hb : (k != a) = true := by simp [hka]
    rw [hb]
    simp
  | cons p t ih =>
    by_cases hpk : p.1 = k
    · rw [dinsert_cons_eq t v hpk]
      unfold removeKey
      rw [List.filter_cons, List.filter_cons]
      have hb1 : (k != a) = true := by simp [hka]
      have hb2 : (p.1 != a) = true := by simp; exact fun hh => hka (hpk.symm.trans hh)
      rw [hb1, hb2]
      simp only [if_true]
      rw [dinsert_cons_eq _ v hpk]
    · rw [dinsert_cons_ne t v hpk]
      unfold removeKey at ih ⊢
      rw [List.filter_cons, List.filter_cons]
      by_cases hpa : p.1 = a
      · have hb : (p.1 != a) = false := by simp [hpa]
        rw [hb]
        simp only [Bool.false_eq_true, if_false]
        exact ih
      · have hb : (p.1 != a) = true := by simp [hpa]
        rw [hb]
        simp only [if_true]
        rw [dinsert_cons_ne _ v hpk, ih]

theorem vmapUpdate_rel {a k : String} (hka : ¬ k = a) (cond1 optb : Bool) (X Y : Issues)
    {vm1 vm2 : List (String × Issues)} {m : String}
    (h1 : dlookup vm1 a = some (errIssues m)) (h2 : removeKey a vm1 = vm2) :
    dlookup (if cond1 then dinsert vm1 k X
             else if optb then (if containsKey vm1 k then vm1 else dinsert vm1 k Y)
             else vm1) a = some (errIssues m) ∧
    removeKey a (if cond1 then dinsert vm1 k X
                 else if optb then (if containsKey vm1 k then vm1 else dinsert vm1 k Y)
                 else vm1) =
      (if cond1 then dinsert vm2 k X
       else if optb then (if containsKey vm2 k then vm2 else dinsert vm2 k Y)
       else vm2) := by
  have hak : ¬ a = k := fun hh => hka hh.symm
  have hlk : dlookup (dinsert vm1 k X) a = some (errIssues m) := by
    rw [dlookup_dinsert]
    simp [hak, h1]
  have hlkY : dlookup (dinsert vm1 k Y) a = some (errIssues m) := by
    rw [dlookup_dinsert]
    simp [hak, h1]
  have hck : containsKey vm2 k = containsKey vm1 k := by
    rw [← h2, containsKey_removeKey hka]
  cases cond1 with
  | true =>
    refine ⟨by simpa using hlk, ?_⟩
    simp only [if_true]
    rw [removeKey_dinsert hka, h2]
  | false =>
    cases optb with
    | false => exact ⟨by simpa using h1, by simp [h2]⟩
    | true =>
      cases hc : containsKey vm1 k with
      | true =>
        refine ⟨?_, ?_⟩
        · simp [hc, h1]
        · simp [hc, hck, h2]
      | false =>
        refine ⟨?_, ?_⟩
        · simp [hc, hlkY]
        · simp only [Bool.false_eq_true, if_false, if_true, hc, hck]
          rw [removeKey_dinsert hka, h2]

theorem stepRel (denv : String) (re : String → String → Option Bool) (a m : String) (rc : RC)
    (hrc : rcAddrOk a rc = true) (s1 s2 : AState)
    (h1 : dlookup s1.vmap a = some (errIssues m))
    (h2 : removeKey a s1.vmap = s2.vmap)
    (h3 : s1.analyzed = s2.analyzed + 1)
    (h4 : s1.excluded = s2.excluded) :
    dlookup (analyzeStep denv re s1 rc).vmap a = some (errIssues m) ∧
    removeKey a (analyzeStep denv re s1 rc).vmap = (analyzeStep denv re s2 rc).vmap ∧
    (analyzeStep denv re s1 rc).analyzed = (analyzeStep denv re s2 rc).analyzed + 1 ∧
    (analyzeStep denv re s1 rc).excluded = (analyzeStep denv re s2 rc).excluded := by
  cases rc with
  | record r =>
    rcases hadr : r.address with _ | k
    · rw [rcAddrOk, hadr] at hrc
      simp at hrc
    · have hka : ¬ k = a := by
        rw [rcAddrOk, hadr] at hrc
        simpa using hrc
      simp only [analyzeStep, stepRec, hadr, Option.getD_some]
      by_cases hact : ((r.actions.getD []).contains "create" || (r.actions.getD []).contains "update") = true
      · simp only [hact, if_true]
        rcases hafter : (r.change.getD {}).after with _ | oc
        · simp only [hafter]
          by_cases hexc : is_resource_excluded re denv (r.type.getD "") k = true
          · simp only [hexc, if_true]
            exact ⟨h1, h2, h3, by rw [h4]⟩
          · simp only [hexc, if_false, Bool.false_eq_true]
            exact ⟨(vmapUpdate_rel hka _ _ _ _ h1 h2).1,
                   (vmapUpdate_rel hka _ _ _ _ h1 h2).2,
                   by omega, h4⟩
        · rcases oc with _ | c
          · simp only [hafter]
            exact ⟨h1, h2, h3, h4⟩
          · simp only [hafter]
            by_cases hexc : is_resource_excluded re denv (r.type.getD "") k = true
            · simp only [hexc, if_true]
              exact ⟨h1, h2, h3, by rw [h4]⟩
            · simp only [hexc, if_false, Bool.false_eq_true]
              exact ⟨(vmapUpdate_rel hka _ _ _ _ h1 h2).1,
                     (vmapUpdate_rel hka _ _ _ _ h1 h2).2,
                     by omega, h4⟩
      · simp only [hact, if_false, Bool.false_eq_true]
        exact ⟨h1, h2, h3, h4⟩
  | raising ad ty2 acts m2 =>
    rcases hadr : ad with _ | k
    · rw [rcAddrOk, hadr] at hrc
      simp at hrc
    · have hka : ¬ k = a := by
        rw [rcAddrOk, hadr] at hrc
        simpa using hrc
      simp only [analyzeStep, stepRaising, hadr, Option.getD_some]
      by_cases hact : (acts.contains "create" || acts.contains "update") = true
      · simp only [hact, if_true]
        by_cases hexc : is_resource_excluded re denv ty2 k = true
        · simp only [hexc, if_true]
          exact ⟨h1, h2, h3, by rw [h4]⟩
        · simp only [hexc, if_false, Bool.false_eq_true]
          have hck : containsKey s2.vmap k = containsKey s1.vmap k := by
            rw [← h2, containsKey_removeKey hka]
          by_cases hc : containsKey s1.vmap k = true
          · simp only [hc, hck, if_true]
            exact ⟨h1, h2, by omega, h4⟩
          · simp only [hc, hck, if_false, Bool.false_eq_true]
            refine ⟨?_, ?_, by omega, h4⟩
            · rw [dlookup_append, h1]
            · rw [removeKey_append, h2]
              have hsing : removeKey a [(k, errIssues m2)] = [(k, errIssues m2)] := by
                unfold removeKey
                rw [List.filter_cons]
                have hb : (k != a) = true := by simp [hka]
                rw [hb]
                simp
              rw [hsing]
      · simp only [hact, if_false, Bool.false_eq_true]
        exact ⟨h1, h2, h3, h4⟩

/-- Claim C8: inserting into any plan a create-action, non-excluded,
fresh-addressed record whose tag-extraction/evaluation raises an exception
with (non-empty) text `m` leaves every other resource's processing intact:
the record's address is recorded with `{"analysis_error": m}`, deleting
that one entry from the violation map gives exactly the map of the run
without the record, the analyzed/excluded counters change only by the one
analyzed resource, and the recorded analysis error forces exit code 1. -/
theorem claim_C8_analysis_error_isolated (denv : String) (re : String → String → Option Bool)
    (rs1 rs2 : List RC) (a ty m : String)
    (hm : ¬ m = "")
    (hexcl : is_resource_excluded re denv ty a = false)
    (hfresh : containsKey (analyze_terraform_plan denv re rs1).vmap a = false)
    (hrs2 : rs2.all (rcAddrOk a) = true) :
    dlookup (analyze_terraform_plan denv re
        (rs1 ++ RC.raising (some a) ty ["create"] m :: rs2)).vmap a = some (errIssues m) ∧
    removeKey a (analyze_terraform_plan denv re
        (rs1 ++ RC.raising (some a) ty ["create"] m :: rs2)).vmap
      = (analyze_terraform_plan denv re (rs1 ++ rs2)).vmap ∧
    (analyze_terraform_plan denv re (rs1 ++ RC.raising (some a) ty ["create"] m :: rs2)).analyzed
      = (analyze_terraform_plan denv re (rs1 ++ rs2)).analyzed + 1 ∧
    (analyze_terraform_plan denv re (rs1 ++ RC.raising (some a) ty ["create"] m :: rs2)).excluded
      = (analyze_terraform_plan denv re (rs1 ++ rs2)).excluded ∧
    mainExitCode (analyze_terraform_plan denv re
        (rs1 ++ RC.raising (some a) ty ["create"] m :: rs2)).vmap = 1 := by
  have hrel : ∀ (l : List RC), l.all (rcAddrOk a) = true → ∀ s1 s2 : AState,
      dlookup s1.vmap a = some (errIssues m) → removeKey a s1.vmap = s2.vmap →
      s1.analyzed = s2.analyzed + 1 → s1.excluded = s2.excluded →
      dlookup (analyzeList denv re l s1).vmap a = some (errIssues m) ∧
      removeKey a (analyzeList denv re l s1).vmap = (analyzeList denv re l s2).vmap ∧
      (analyzeList denv re l s1).analyzed = (analyzeList denv re l s2).analyzed + 1 ∧
      (analyzeList denv re l s1).excluded = (analyzeList denv re l s2).excluded := by
    intro l
    induction l with
    | nil => intro _ s1 s2 hh1 hh2 hh3 hh4; exact ⟨hh1, hh2, hh3, hh4⟩
    | cons rc t ih =>
      intro hall s1 s2 hh1 hh2 hh3 hh4
      have hparts : rcAddrOk a rc = true ∧ t.all (rcAddrOk a) = true := by
        simpa [Bool.and_eq_true] using hall
      have hstep := stepRel denv re a m rc hparts.1 s1 s2 hh1 hh2 hh3 hh4
      exact ih hparts.2 _ _ hstep.1 hstep.2.1 hstep.2.2.1 hstep.2.2.2
  have hfr : ¬ a ∈ keysOf (analyze_terraform_plan denv re rs1).vmap := by
    intro hmem
    rw [(containsKey_eq_true_iff _ _).mpr hmem] at hfresh
    simp at hfresh
  have hlknone : dlookup (analyze_terraform_plan denv re rs1).vmap a = none := dlookup_eq_none hfr
  have hbad : analyzeStep denv re (analyze_terraform_plan denv re rs1)
      (RC.raising (some a) ty ["create"] m) =
      { vmap := (analyze_terraform_plan denv re rs1).vmap ++ [(a, errIssues m)],
        analyzed := (analyze_terraform_plan denv re rs1).analyzed + 1,
        excluded := (analyze_terraform_plan denv re rs1).excluded } := by
    have hact : ((["create"] : List String).contains "create"
        || (["create"] : List String).contains "update") = true := by decide
    simp only [analyzeStep, stepRaising, Option.getD_some, hact, if_true, hexcl,
      Bool.false_eq_true, if_false, hfresh]
  have hsplitfull : analyze_terraform_plan denv re
      (rs1 ++ RC.raising (some a) ty ["create"] m :: rs2)
      = analyzeList denv re rs2 (analyzeStep denv re (analyze_terraform_plan denv re rs1)
          (RC.raising (some a) ty ["create"] m)) := by
    unfold analyze_terraform_plan analyzeList
    rw [List.foldl_append, List.foldl_cons]
  have hsplitwo : analyze_terraform_plan denv re (rs1 ++ rs2)
      = analyzeList denv re rs2 (analyze_terraform_plan denv re rs1) := by
    unfold analyze_terraform_plan analyzeList
    rw [List.foldl_append]
  have hb1 : dlookup (analyzeStep denv re (analyze_terraform_plan denv re rs1)
      (RC.raising (some a) ty ["create"] m)).vmap a = some (errIssues m) := by
    rw [hbad, dlookup_append, hlknone]
    simp [dlookup]
  have hb2 : removeKey a (analyzeStep denv re (analyze_terraform_plan denv re rs1)
      (RC.raising (some a) ty ["create"] m)).vmap = (analyze_terraform_plan denv re rs1).vmap := by
    rw [hbad]
    show removeKey a ((analyze_terraform_plan denv re rs1).vmap ++ [(a, errIssues m)]) = _
    rw [removeKey_append, removeKey_not_mem hfr]
    simp [removeKey]
  have hb3 : (analyzeStep denv re (analyze_terraform_plan denv re rs1)
      (RC.raising (some a) ty ["create"] m)).analyzed
      = (analyze_terraform_plan denv re rs1).analyzed + 1 := by rw [hbad]
  have hb4 : (analyzeStep denv re (analyze_terraform_plan denv re rs1)
      (RC.raising (some a) ty ["create"] m)).excluded
      = (analyze_terraform_plan denv re rs1).excluded := by rw [hbad]
  obtain ⟨c1, c2, c3, c4⟩ := hrel rs2 hrs2 _ (analyze_terraform_plan denv re rs1) hb1 hb2 hb3 hb4
  have hexit : mainExitCode (analyzeList denv re rs2 (analyzeStep denv re
      (analyze_terraform_plan denv re rs1) (RC.raising (some a) ty ["create"] m))).vmap = 1 := by
    unfold mainExitCode has_critical_violations
    have hie : m.isEmpty = false := by
      cases hmi : m.isEmpty
      · rfl
      · exact absurd ((String.isEmpty_iff m).mp hmi) hm
    have hany : (analyzeList denv re rs2 (analyzeStep denv re
        (analyze_terraform_plan denv re rs1) (RC.raising (some a) ty ["create"] m))).vmap.any
        (fun p => !p.2.missing.isEmpty || !p.2.invalid.isEmpty || !p.2.cross_tag.isEmpty ||
          truthyErr p.2.analysis_error) = true := by
      refine List.any_eq_true.mpr ⟨(a, errIssues m), dlookup_mem c1, ?_⟩
      simp [errIssues, truthyErr, hie]
    simp [hany]
  rw [hsplitfull, hsplitwo]
  exact ⟨c1, c2, c3, c4, hexit⟩

/-- Witness for claim C8 at a concrete two-record plan. -/
theorem claim_C8_analysis_error_isolated_witness :
    (¬ ("boom" : String) = "" ∧
     is_resource_excluded RegexModel.reMatchModel "NPE" "aws_s3_bucket" "aws_s3_bucket.r" = false ∧
     containsKey (analyze_terraform_plan "NPE" RegexModel.reMatchModel []).vmap
       "aws_s3_bucket.r" = false ∧
     ([RC.record Samples.optOnlyRec].all (rcAddrOk "aws_s3_bucket.r")) = true) ∧
    (dlookup (analyze_terraform_plan "NPE" RegexModel.reMatchModel
        ([] ++ RC.raising (some "aws_s3_bucket.r") "aws_s3_bucket" ["create"] "boom"
          :: [RC.record Samples.optOnlyRec])).vmap "aws_s3_bucket.r"
        = some (errIssues "boom") ∧
     mainExitCode (analyze_terraform_plan "NPE" RegexModel.reMatchModel
        ([] ++ RC.raising (some "aws_s3_bucket.r") "aws_s3_bucket" ["create"] "boom"
          :: [RC.record Samples.optOnlyRec])).vmap = 1) :=
  ⟨⟨by decide, rfl, rfl, by decide⟩,
   (claim_C8_analysis_error_isolated "NPE" RegexModel.reMatchModel [] [RC.record Samples.optOnlyRec]
      "aws_s3_bucket.r" "aws_s3_bucket" "boom" (by decide) rfl rfl (by decide)).1,
   (claim_C8_analysis_error_isolated "NPE" RegexModel.reMatchModel [] [RC.record Samples.optOnlyRec]
      "aws_s3_bucket.r" "aws_s3_bucket" "boom" (by decide) rfl rfl (by decide)).2.2.2.2⟩

/-- Witness for claim C1: the case-insensitive `Application` rule accepts
`"myapp"` under the concrete oracle. -/
theorem claim_C1_validate_tag_value_witness :
    validate_tag_value RegexModel.reMatchModel "myapp"
      { key := "Application", allowed_values := some ["MyApp", "AnotherApp", "TestApp"],
        case_insensitive := true, key_regex := some "^[a-zA-Z]+$",
        value_regex := some "^(?i)(MyApp|AnotherApp|TestApp)$",
        suggestion := some "MyApp" } = true :=
  (claim_C1_validate_tag_value RegexModel.reMatchModel
    { key := "Application", allowed_values := some ["MyApp", "AnotherApp", "TestApp"],
      case_insensitive := true, key_regex := some "^[a-zA-Z]+$",
      value_regex := some "^(?i)(MyApp|AnotherApp|TestApp)$",
      suggestion := some "MyApp" } "myapp").mpr
    ⟨by intro avs h hne; cases h; decide,
     by intro p h hne; cases h; rfl⟩

/-- Witness for claim C2 at the S3 resource type under NPE. -/
theorem claim_C2_rule_merge_witness :
    ((get_relevant_tag_rules "NPE" "aws_s3_bucket").1.map (fun r => r.key)).Nodup :=
  (claim_C2_rule_merge "NPE" "aws_s3_bucket").1.1

/-- Witness for claim C4 at a critical-sensitivity S3 tag map. -/
theorem claim_C4_check_cross_tag_rules_witness :
    check_cross_tag_rules [("sensitivity", "critical")] "aws_s3_bucket" =
      ((dlookup CROSS_TAG_RULES "aws_s3_bucket").getD []).flatMap
        (crossContribution [("sensitivity", "critical")]) :=
  claim_C4_check_cross_tag_rules [("sensitivity", "critical")] "aws_s3_bucket"

/-- Witness for the amended claim C5 at the optional-only run. -/
theorem claim_C5_report_structure_witness :
    (generate_json_report "NPE" Samples.optOnlyState.vmap 1 0).violations =
      Samples.optOnlyState.vmap.map reportEntryOf :=
  (claim_C5_report_structure "NPE" Samples.optOnlyState.vmap 1 0).1

/-- Witness for claim C9 at the example attribute map. -/
theorem claim_C9_extract_tags_idempotent_witness :
    (extract_tags (extract_tags Samples.cfgC3).2).1 = (extract_tags Samples.cfgC3).1 :=
  claim_C9_extract_tags_idempotent Samples.cfgC3

/-- Witness instantiation for claim C7's oracle quantifier. -/
theorem claim_C7_after_unknown_failing_witness :
    (analyze_terraform_plan "NPE" RegexModel.reMatchModel
      [RC.record Samples.s3UnknownRec]).analyzed = 1 :=
  (claim_C7_after_unknown_failing RegexModel.reMatchModel).1
